import Mathlib

/-!
Verification of the m61 debugging memory allocator (m61.cc).

Shallow embedding notes:

* The allocator threads an intrusive doubly-linked list of `header` records
  through a single 8 MiB arena.  We embed the list as `List Header`, head
  first; the `p_next` pointer of a node is the following list element and
  `p_prev` is the preceding one, exactly as maintained by `add_block`,
  `remove_block` and `insert_before_block` in the source.
* Unlinking a block (in `coalesce` and `move_buffer_pos`) does not erase its
  header bytes from arena memory; later code (for instance the double-free
  check in `m61_free`) can still read the stale header.  We keep such
  unlinked headers in a separate `tombs` list, newest first.
* Machine integers (`size_t`, `unsigned long long`) are embedded as `Nat`;
  wrap-around is made explicit (`% 2 ^ 64`) where the source can overflow
  (the `count * size` product in `m61_calloc`).  The decrements in
  `remove_from_statistics` use truncated `Nat` subtraction; in reachable
  states the counters are large enough, which the statistics invariant
  below establishes.
* Platform constants are those of the LP64 platform the source targets
  (Linux x86-64): `sizeof(header) = 64`, `alignof(std::max_align_t) = 16`.
  The arena base address returned by `mmap` is page-aligned; it is embedded
  as the fixed 16-byte-aligned constant `BUF_BASE`.
-/

namespace M61

/-- `#define FREE (char*) 0xCAFEFEED` — status tag of a free block. -/
def FREE : Nat := 0xCAFEFEED

/-- `#define ALLOCATED (char*) 0xDEADF00D` — status tag of an allocated block. -/
def ALLOCATED : Nat := 0xDEADF00D

/-- `const size_t ALIGNMENT = alignof(std::max_align_t)` (16 on LP64). -/
def ALIGNMENT : Nat := 16

/-- `sizeof(header)`: 8 members, laid out in 64 bytes on LP64. -/
def HEADER_SIZE : Nat := 64

/-- `sizeof(END_MARKER)`: the guard pattern is 8 bytes long. -/
def END_MARKER_SIZE : Nat := 8

/-- `const size_t MIN_BLOCK_SIZE = sizeof(header) + ALIGNMENT`. -/
def MIN_BLOCK_SIZE : Nat := HEADER_SIZE + ALIGNMENT

/-- `default_buffer.size = 8 << 20` (8 MiB). -/
def BUFFER_SIZE : Nat := 8 * 1024 * 1024

/-- `SIZE_MAX` on LP64. -/
def SIZE_MAX : Nat := 2 ^ 64 - 1

/-- Base address of the arena (`default_buffer.buffer`); `mmap` returns a
page-aligned address, embedded as a fixed 16-byte-aligned constant. -/
def BUF_BASE : Nat := 1024

/-- The `header` record prefixed to every block.  `addr` is the address the
header itself lives at (the value of the C `header*`); `p_next`/`p_prev`
are represented positionally by the enclosing `List Header`. -/
structure Header where
  addr : Nat
  block_size : Nat
  p_payload : Nat
  p_end_marker : Nat
  p_status : Nat
  p_file : String
  line : Nat
deriving DecidableEq, Repr

/-- `m61_statistics` (all counters are 64-bit unsigned). -/
structure Stats where
  nactive : Nat
  active_size : Nat
  ntotal : Nat
  total_size : Nat
  nfail : Nat
  fail_size : Nat
  heap_min : Nat
  heap_max : Nat
deriving DecidableEq, Repr

/-- Global allocator state: the block list (`head` first), the unlinked
headers still present in arena memory (newest first), the arena frontier
`default_buffer.pos`, and `gstats`. -/
structure AllocState where
  blocks : List Header
  tombs : List Header
  pos : Nat
  stats : Stats
deriving DecidableEq, Repr

/-- The initial program state: empty list, frontier 0, zeroed statistics. -/
def initState : AllocState :=
  { blocks := [], tombs := [], pos := 0,
    stats := { nactive := 0, active_size := 0, ntotal := 0, total_size := 0,
               nfail := 0, fail_size := 0, heap_min := 0, heap_max := 0 } }

/-- `get_payload_size`: distance from `p_payload` to `p_end_marker`. -/
def get_payload_size (h : Header) : Nat :=
  h.p_end_marker - h.p_payload

/-- `is_header_valid(p_header, p_payload)`: the header pointer must be
aligned, and a nonnull recorded payload pointer must equal `ptr`. -/
def is_header_valid (h : Header) (ptr : Nat) : Prop :=
  h.addr % ALIGNMENT = 0 ∧ (h.p_payload = 0 ∨ h.p_payload = ptr)

instance (h : Header) (ptr : Nat) : Decidable (is_header_valid h ptr) := by
  unfold is_header_valid; infer_instance

/-- `is_overflowing(a, b)`: does `a * b` overflow `size_t`?  The product in
the source wraps modulo `2 ^ 64`; the check divides the wrapped product. -/
def is_overflowing (a b : Nat) : Bool :=
  if a = 0 ∨ b = 0 then false
  else
    let c := (a * b) % 2 ^ 64
    !(a == c / b) || !(c % b == 0)

/-- `generate_alloc_block`: `generate_generic_block` followed by setting the
status to `ALLOCATED` and placing the end marker after `payload_size`
payload bytes (the guard bytes themselves are not tracked). -/
def generate_alloc_block (addr block_size payload_size : Nat)
    (file : String) (line : Nat) : Header :=
  { addr := addr, block_size := block_size, p_payload := addr + HEADER_SIZE,
    p_end_marker := addr + HEADER_SIZE + payload_size,
    p_status := ALLOCATED, p_file := file, line := line }

/-- `generate_free_block`: `generate_generic_block` followed by setting the
status to `FREE` and a null end marker. -/
def generate_free_block (addr block_size : Nat)
    (file : String) (line : Nat) : Header :=
  { addr := addr, block_size := block_size, p_payload := addr + HEADER_SIZE,
    p_end_marker := 0, p_status := FREE, p_file := file, line := line }

/-- `add_to_statistics(sz, ptr)` for a successful allocation. -/
def add_to_statistics (st : Stats) (sz ptr : Nat) : Stats :=
  { st with
    ntotal := st.ntotal + 1, nactive := st.nactive + 1,
    total_size := st.total_size + sz, active_size := st.active_size + sz,
    heap_min := if st.heap_min = 0 ∨ st.heap_min > ptr then ptr else st.heap_min,
    heap_max := if st.heap_max = 0 ∨ st.heap_max < ptr + sz then ptr + sz
                else st.heap_max }

/-- `remove_from_statistics(sz)` for a free of payload size `sz`. -/
def remove_from_statistics (st : Stats) (sz : Nat) : Stats :=
  { st with nactive := st.nactive - 1, active_size := st.active_size - sz }

/-- `update_statistics_for_failure(sz)` for a failed allocation of the
requested payload size `sz`. -/
def update_statistics_for_failure (st : Stats) (sz : Nat) : Stats :=
  { st with fail_size := st.fail_size + sz, nfail := st.nfail + 1 }

/-- `split_block(p_header, required_size)`, expressed as the list segment
that replaces the block: if the residual is at least `MIN_BLOCK_SIZE`, a
free block carved from the tail of the region is inserted immediately
before the block (`insert_before_block`) and the block shrinks to
`required_size`; otherwise the block is left alone. -/
def split_block (h : Header) (required_size : Nat) : List Header :=
  let residual_size := h.block_size - required_size
  if residual_size < MIN_BLOCK_SIZE then [h]
  else
    [generate_free_block (h.addr + required_size) residual_size h.p_file h.line,
     { h with block_size := required_size }]

/-- `find_freed_block`: first-fit scan of the block list for a `FREE` block
with `block_size ≥ required_size`; the found block is converted with
`generate_alloc_block` (keeping its block size) and then `split_block` is
applied.  Returns the payload pointer and the rewritten list. -/
def find_freed_block (required_size payload_size : Nat) (file : String)
    (line : Nat) : List Header → Option (Nat × List Header)
  | [] => none
  | h :: rest =>
    if h.p_status = FREE ∧ required_size ≤ h.block_size then
      let hA := generate_alloc_block h.addr h.block_size payload_size file line
      some (hA.p_payload, split_block hA required_size ++ rest)
    else
      match find_freed_block required_size payload_size file line rest with
      | none => none
      | some (p, rest') => some (p, h :: rest')

/-- `find_free_space(block_size, payload_size, file, line)`: carve at the
arena frontier if the remaining capacity suffices (`add_block` puts the new
header at the list head), otherwise fall back to `find_freed_block`. -/
def find_free_space (s : AllocState) (block_size payload_size : Nat)
    (file : String) (line : Nat) : Option Nat × AllocState :=
  if block_size ≤ BUFFER_SIZE - s.pos then
    (some (BUF_BASE + s.pos + HEADER_SIZE),
     { s with
       blocks := generate_alloc_block (BUF_BASE + s.pos) block_size payload_size
                   file line :: s.blocks,
       pos := s.pos + block_size })
  else
    match find_freed_block block_size payload_size file line s.blocks with
    | none => (none, s)
    | some (p, bl) => (some p, { s with blocks := bl })

/-- The padding computed at the top of `m61_malloc`: distance to the next
alignment boundary, bumped by one `ALIGNMENT` when too small to hold the
`END_MARKER`. -/
def malloc_padding (sz : Nat) : Nat :=
  let padding := ALIGNMENT - (HEADER_SIZE + sz) % ALIGNMENT
  if padding < END_MARKER_SIZE then padding + ALIGNMENT else padding

/-- `m61_malloc(sz, file, line)`.  Returns the payload pointer (`none` for
`nullptr`) and the new global state. -/
def m61_malloc (s : AllocState) (sz : Nat) (file : String) (line : Nat) :
    Option Nat × AllocState :=
  if sz > SIZE_MAX - malloc_padding sz - HEADER_SIZE then
    (none, { s with stats := update_statistics_for_failure s.stats sz })
  else
    match find_free_space s (HEADER_SIZE + sz + malloc_padding sz) sz file line with
    | (none, s1) => (none, { s1 with stats := update_statistics_for_failure s1.stats sz })
    | (some p, s1) => (some p, { s1 with stats := add_to_statistics s1.stats sz p })

/-- Outcome of `m61_free`: normal return, the null-pointer no-op, the
four fatal diagnostic paths (`abort()` after an error report), or the
(unreachable) case of freeing a stale header that still reads `ALLOCATED`
— there the source would follow dangling `p_prev`/`p_next` pointers, so
the model leaves the state unchanged. -/
inductive FreeOutcome where
  | ok
  | nullNoop
  | abortNotInHeap
  | abortInvalidHeader
  | abortDoubleFree
  | abortNotAllocated
  | abortWildWrite
  | staleUndefined
deriving DecidableEq, Repr

/-- Locate the block whose header sits at address `haddr` in the block list
(the source simply dereferences `((header*) ptr) - 1`; in the list embedding
this is the list element with that header address).  Returns the zipper
`(blocks before it, the block, blocks after it)`. -/
def free_locate (haddr : Nat) : List Header →
    Option (List Header × Header × List Header)
  | [] => none
  | h :: rest =>
    if h.addr = haddr then some ([], h, rest)
    else
      match free_locate haddr rest with
      | none => none
      | some (pre, b, post) => some (h :: pre, b, post)

/-- Step 1 of `coalesce` (`can_coalesce_up`): the freed block `h` has list
predecessor (towards the head) `pre.getLast?`; if that predecessor is
free, absorb its size into `h` and `remove_block` it.  Returns the new
head side, the (possibly merged) current block, and the unlinked headers
(they stay behind in arena memory). -/
def coalesce_up (pre : List Header) (h : Header) :
    List Header × Header × List Header :=
  match pre.getLast? with
  | some p =>
    if p.p_status = FREE then
      (pre.dropLast, { h with block_size := h.block_size + p.block_size }, [p])
    else (pre, h, ([] : List Header))
  | none => (pre, h, ([] : List Header))

/-- Step 2 of `coalesce` (`can_coalesce_down`): given the result of step 1
and the list successor side, merge into the successor when it is free. -/
def coalesce_down (pre1 : List Header) (h1 : Header) (t1 : List Header) :
    List Header → List Header × List Header
  | n :: post1 =>
    if n.p_status = FREE then
      (pre1 ++ { n with block_size := n.block_size + h1.block_size } :: post1,
       h1 :: t1)
    else (pre1 ++ h1 :: n :: post1, t1)
  | [] => (pre1 ++ [h1], t1)

/-- `coalesce(p_header)` around the freshly freed block `h`: step 1 merges
the free list predecessor into `h`, step 2 merges `h` into a free list
successor.  Returns the new block list and the unlinked headers, newest
first. -/
def coalesce (pre : List Header) (h : Header) (post : List Header) :
    List Header × List Header :=
  coalesce_down (coalesce_up pre h).1 (coalesce_up pre h).2.1
    (coalesce_up pre h).2.2 post

/-- `move_buffer_pos()`: if the list head is not allocated, retract the
frontier by its block size and `remove_block` it (its header bytes stay in
memory). -/
def move_buffer_pos (s : AllocState) : AllocState :=
  match s.blocks with
  | [] => s
  | h :: rest =>
    if h.p_status = ALLOCATED then s
    else { s with pos := s.pos - h.block_size, blocks := rest,
                  tombs := h :: s.tombs }

/-- `m61_free(ptr, file, line)`.  The guard-pattern comparison
(`is_end_marker_valid`) reads payload-adjacent bytes that the model does
not track; no modelled operation overwrites a guard, so the check is
embedded as passing.  A pointer whose header address matches no live block
is looked up among the stale unlinked headers (their bytes are still in
arena memory); if not even a stale header is there the model reports the
invalid-header abort that reading arbitrary bytes produces. -/
def m61_free (s : AllocState) (ptr : Nat) (file : String) (line : Nat) :
    FreeOutcome × AllocState :=
  if ptr = 0 then (.nullNoop, s)
  else if ptr < s.stats.heap_min ∨ ptr > s.stats.heap_max then
    (.abortNotInHeap, s)
  else
    match free_locate (ptr - HEADER_SIZE) s.blocks with
    | some (pre, h, post) =>
      if ¬ is_header_valid h ptr then (.abortInvalidHeader, s)
      else if h.p_status ≠ ALLOCATED then
        if h.p_status = FREE then (.abortDoubleFree, s)
        else (.abortNotAllocated, s)
      else
        (FreeOutcome.ok, move_buffer_pos
          { s with
            blocks := (coalesce pre
              (generate_free_block (ptr - HEADER_SIZE) h.block_size file line)
              post).1,
            tombs := (coalesce pre
              (generate_free_block (ptr - HEADER_SIZE) h.block_size file line)
              post).2 ++ s.tombs,
            stats := remove_from_statistics s.stats (get_payload_size h) })
    | none =>
      match s.tombs.find? (fun h => h.addr == ptr - HEADER_SIZE) with
      | some h =>
        if ¬ is_header_valid h ptr then (.abortInvalidHeader, s)
        else if h.p_status ≠ ALLOCATED then
          if h.p_status = FREE then (.abortDoubleFree, s)
          else (.abortNotAllocated, s)
        else (.staleUndefined, s)
      | none => (.abortInvalidHeader, s)

/-- `m61_calloc(count, sz, file, line)`.  On multiplication overflow the
failure statistics record the element size `sz`; otherwise the wrapped
product is passed to `m61_malloc` (the zero-fill touches only payload
bytes, which the model does not track). -/
def m61_calloc (s : AllocState) (count sz : Nat) (file : String) (line : Nat) :
    Option Nat × AllocState :=
  if is_overflowing count sz then
    (none, { s with stats := { s.stats with
               fail_size := s.stats.fail_size + sz,
               nfail := s.stats.nfail + 1 } })
  else
    m61_malloc s ((count * sz) % 2 ^ 64) file line

/-- `m61_realloc(ptr, sz, file, line)`.  The third component records the
`memcpy` that was performed, as `(destination, source, length)`: the source
computes the length from the header of the NEW pointer
(`((header*) new_ptr) - 1`), copying `payload_size` bytes if
`sz > payload_size` and `sz` bytes otherwise. -/
def m61_realloc (s : AllocState) (ptr sz : Nat) (file : String) (line : Nat) :
    Option Nat × AllocState × Option (Nat × Nat × Nat) :=
  if sz = 0 then (none, s, none)
  else
    match m61_malloc s sz file line with
    | (none, s1) => (none, s1, none)
    | (some new_ptr, s1) =>
      if ptr = 0 then (some new_ptr, s1, none)
      else
        let payload_size :=
          match free_locate (new_ptr - HEADER_SIZE) s1.blocks with
          | some (_, h, _) => get_payload_size h
          | none => 0
        let len := if sz > payload_size then payload_size else sz
        (some new_ptr, (m61_free s1 ptr file line).2, some (new_ptr, ptr, len))

/-- `report_ptr_inside_alloc_block(ptr)`, with explicit fuel: the source
loop is `while (p_header) { if (status != ALLOCATED) continue; ...;
p_header = p_header->p_next; }` — the `continue` branch re-tests the SAME
node without advancing.  `none` means the fuel ran out with the loop still
running; `some none` means the traversal finished without finding an
enclosing block; `some (some (off, psz))` means the error line was printed
with offset `off` into a `psz`-byte region. -/
def report_ptr_inside_alloc_block (ptr : Nat) :
    Nat → List Header → Option (Option (Nat × Nat))
  | 0, _ => none
  | _ + 1, [] => some none
  | fuel + 1, h :: rest =>
    if h.p_status ≠ ALLOCATED then
      report_ptr_inside_alloc_block ptr fuel (h :: rest)
    else if h.p_payload ≤ ptr ∧ ptr < h.p_end_marker then
      some (some (ptr - h.p_payload, get_payload_size h))
    else
      report_ptr_inside_alloc_block ptr fuel rest

/-- Number of `ALLOCATED` blocks in a block list. -/
def countA (l : List Header) : Nat :=
  (l.filter (fun h => h.p_status == ALLOCATED)).length

/-- Total payload bytes of the `ALLOCATED` blocks in a block list. -/
def sumA (l : List Header) : Nat :=
  ((l.filter (fun h => h.p_status == ALLOCATED)).map get_payload_size).sum

/-- The payload size the statistics tracker subtracts when `ptr` is freed:
`get_payload_size` of the block whose header `m61_free` recovers. -/
def freed_payload (s : AllocState) (ptr : Nat) : Nat :=
  match free_locate (ptr - HEADER_SIZE) s.blocks with
  | some (_, b, _) => get_payload_size b
  | none => 0

/-- One external allocator call: `m61_malloc(sz)` or `m61_free(ptr)`. -/
inductive Op where
  | malloc (sz : Nat)
  | free (ptr : Nat)
deriving DecidableEq, Repr

/-- Accumulator of a run: the allocator state, the ghost freed-call count
and freed-byte total, and whether every call so far succeeded (`m61_malloc`
returned non-null and `m61_free` returned normally). -/
structure RunAcc where
  s : AllocState
  freedCount : Nat
  freedBytes : Nat
  allOk : Bool
deriving DecidableEq, Repr

/-- Execute one call, accumulating the ghost freed counters. -/
def runOp (acc : RunAcc) : Op → RunAcc
  | .malloc sz =>
    match m61_malloc acc.s sz "caller" 0 with
    | (r, s1) => { acc with s := s1, allOk := acc.allOk && r.isSome }
  | .free ptr =>
    match m61_free acc.s ptr "caller" 0 with
    | (out, s1) =>
      { s := s1, freedCount := acc.freedCount + 1,
        freedBytes := acc.freedBytes + freed_payload acc.s ptr,
        allOk := acc.allOk && (out == FreeOutcome.ok) }

/-- Execute a sequence of calls starting from an accumulator. -/
def runFrom (acc : RunAcc) : List Op → RunAcc
  | [] => acc
  | op :: ops => runFrom (runOp acc op) ops

/-- Execute a sequence of calls from the initial program state. -/
def runAll (ops : List Op) : RunAcc :=
  runFrom { s := initState, freedCount := 0, freedBytes := 0, allOk := true } ops

/-- Is `ptr` the payload pointer of a currently allocated block? -/
def is_live (s : AllocState) (ptr : Nat) : Bool :=
  s.blocks.any (fun h => h.addr == ptr - HEADER_SIZE && h.p_status == ALLOCATED)

/-!  Helper lemmas. -/

theorem find_free_space_none (s : AllocState) (bs psz : Nat) (f : String)
    (l : Nat) (h : (find_free_space s bs psz f l).1 = none) :
    (find_free_space s bs psz f l).2 = s := by
  unfold find_free_space at h ⊢
  by_cases hcap : bs ≤ BUFFER_SIZE - s.pos
  · simp [hcap] at h
  · simp only [if_neg hcap] at h ⊢
    cases hm : find_freed_block bs psz f l s.blocks with
    | none => simp [hm]
    | some pb => rw [hm] at h; exact absurd h (by simp)

theorem m61_malloc_none (s : AllocState) (sz : Nat) (f : String) (l : Nat)
    (h : (m61_malloc s sz f l).1 = none) :
    (m61_malloc s sz f l).2
      = { s with stats := update_statistics_for_failure s.stats sz } := by
  unfold m61_malloc at h ⊢
  by_cases hov : sz > SIZE_MAX - malloc_padding sz - HEADER_SIZE
  · simp [hov]
  · simp only [if_neg hov] at h ⊢
    cases hf : find_free_space s (HEADER_SIZE + sz + malloc_padding sz) sz f l with
    | mk r s1 =>
      cases r with
      | some p => rw [hf] at h; exact absurd h (by simp)
      | none =>
        have h2 : s1 = s := by
          have h3 := find_free_space_none s (HEADER_SIZE + sz + malloc_padding sz) sz f l
          rw [hf] at h3; exact h3 rfl
        simp [h2]

/-!  Claim C3. -/

/-- C3 counterexample: the claim says a zero-size allocate returns null, but
on the initial state `m61_malloc(0)` returns a (non-null) payload pointer to
a minimal block. -/
theorem malloc_zero_not_null :
    ¬ ((m61_malloc initState 0 "main" 1).1 = none) := by decide

/-- C3 (amended): a zero-size allocate request is not special-cased; the
allocator builds a minimal block of `MIN_BLOCK_SIZE` (80) bytes and, when
the arena frontier has room for it, returns a non-null payload pointer. -/
theorem malloc_zero_allocates (s : AllocState) (f : String) (l : Nat)
    (h : MIN_BLOCK_SIZE ≤ BUFFER_SIZE - s.pos) :
    (m61_malloc s 0 f l).1 = some (BUF_BASE + s.pos + HEADER_SIZE) := by
  have hov : ¬ ((0 : Nat) > SIZE_MAX - malloc_padding 0 - HEADER_SIZE) := by decide
  have hcap : HEADER_SIZE + 0 + malloc_padding 0 ≤ BUFFER_SIZE - s.pos := by
    have hmin : HEADER_SIZE + 0 + malloc_padding 0 = MIN_BLOCK_SIZE := by decide
    rw [hmin]; exact h
  unfold m61_malloc find_free_space
  rw [if_neg hov, if_pos hcap]

/-- Witness for `malloc_zero_allocates` at the initial state. -/
theorem malloc_zero_allocates_witness :
    (m61_malloc initState 0 "main" 1).1 = some (BUF_BASE + initState.pos + HEADER_SIZE) :=
  malloc_zero_allocates initState "main" 1 (by decide)

/-!  Claim C9. -/

/-- C9: every failed allocation — overflow of the size computation or
arena-plus-free-list exhaustion in `m61_malloc`, and multiplication
overflow in `m61_calloc` — returns null, increments `nfail` by one and adds
the requested payload size (for calloc: the element size argument) to
`fail_size`; no other statistic changes, so the internal block size is
never recorded. -/
theorem failed_allocation_statistics (s : AllocState) (sz count : Nat)
    (f : String) (l : Nat) :
    ((m61_malloc s sz f l).1 = none →
      (m61_malloc s sz f l).2
        = { s with stats := { s.stats with
              nfail := s.stats.nfail + 1,
              fail_size := s.stats.fail_size + sz } }) ∧
    (is_overflowing count sz = true →
      (m61_calloc s count sz f l).1 = none ∧
      (m61_calloc s count sz f l).2
        = { s with stats := { s.stats with
              nfail := s.stats.nfail + 1,
              fail_size := s.stats.fail_size + sz } }) := by
  constructor
  · intro h
    rw [m61_malloc_none s sz f l h]
    rfl
  · intro h
    unfold m61_calloc
    rw [if_pos h]
    exact ⟨rfl, rfl⟩

/-- Witness for `failed_allocation_statistics`: a malloc whose size
computation overflows, and a calloc whose element product overflows, both
from the initial state. -/
theorem failed_allocation_statistics_witness :
    (m61_malloc initState (2 ^ 64 - 1) "main" 1).2.stats.nfail = 1 ∧
    (m61_calloc initState 2 (2 ^ 64 - 1) "main" 1).1 = none := by
  refine ⟨?_, ?_⟩
  · rw [(failed_allocation_statistics initState (2 ^ 64 - 1) 2 "main" 1).1
      (by decide)]
    rfl
  · exact ((failed_allocation_statistics initState (2 ^ 64 - 1) 2 "main" 1).2
      (by decide)).1

/-!  Claim C2. -/

/-- C2: a resize of a live allocation with new size 0, or whose internal
fresh allocation fails, returns null and leaves the original block
untouched: the block list, the stale headers and the frontier are exactly
as before (so the block is still allocated, with its header — and hence
its payload region — intact, and is not freed), no copy is performed, and
the active-count and active-bytes statistics are unchanged. -/
theorem resize_failure_leaves_original (s : AllocState) (ptr sz : Nat)
    (f : String) (l : Nat) (hlive : is_live s ptr = true)
    (hfail : sz = 0 ∨ (m61_malloc s sz f l).1 = none) :
    (m61_realloc s ptr sz f l).1 = none ∧
    (m61_realloc s ptr sz f l).2.1.blocks = s.blocks ∧
    (m61_realloc s ptr sz f l).2.1.tombs = s.tombs ∧
    (m61_realloc s ptr sz f l).2.1.pos = s.pos ∧
    (m61_realloc s ptr sz f l).2.1.stats.nactive = s.stats.nactive ∧
    (m61_realloc s ptr sz f l).2.1.stats.active_size = s.stats.active_size ∧
    (m61_realloc s ptr sz f l).2.2 = none := by
  by_cases hsz : sz = 0
  · simp [m61_realloc, hsz]
  · rcases hfail with h0 | hm
    · exact absurd h0 hsz
    · have hall : m61_malloc s sz f l
          = (none, { s with stats := update_statistics_for_failure s.stats sz }) := by
        have h2 := m61_malloc_none s sz f l hm
        cases hq : m61_malloc s sz f l with
        | mk r s1 =>
          rw [hq] at hm h2
          simp only at hm h2
          rw [hm, h2]
      simp [m61_realloc, hsz, hall, update_statistics_for_failure]

/-- Witness for `resize_failure_leaves_original`: a live 100-byte block,
resized with a size whose block-size computation overflows. -/
theorem resize_failure_leaves_original_witness :
    (m61_realloc (m61_malloc initState 100 "main" 1).2 (BUF_BASE + HEADER_SIZE)
        (2 ^ 64 - 1) "main" 2).1 = none ∧
    (m61_realloc (m61_malloc initState 100 "main" 1).2 (BUF_BASE + HEADER_SIZE)
        (2 ^ 64 - 1) "main" 2).2.1.stats.nactive
      = (m61_malloc initState 100 "main" 1).2.stats.nactive := by
  have h := resize_failure_leaves_original (m61_malloc initState 100 "main" 1).2
    (BUF_BASE + HEADER_SIZE) (2 ^ 64 - 1) "main" 2 (by decide)
    (Or.inr (by decide))
  exact ⟨h.1, h.2.2.2.2.1⟩

/-!  Claim C1. -/

/-- C1 failing input: `m61_malloc(4)` returns a block with payload size 4;
`m61_realloc(p, 8)` then records a `memcpy` of 8 bytes out of that 4-byte
payload — the length is taken from the NEW block's header, so it always
equals the new size, not `min(new_size, old_payload_size) = 4`; the copy
reads 4 bytes beyond the old payload. -/
theorem realloc_copy_length_is_new_size :
    (m61_realloc (m61_malloc initState 4 "alloc" 1).2 (BUF_BASE + HEADER_SIZE)
        8 "re" 2).2.2
      = some (BUF_BASE + 80 + HEADER_SIZE, BUF_BASE + HEADER_SIZE, 8) ∧
    freed_payload (m61_malloc initState 4 "alloc" 1).2 (BUF_BASE + HEADER_SIZE) = 4 ∧
    ¬ (8 ≤ 4) := by
  decide

/-!  Claim C4. -/

/-- A reachable state whose block list holds a free block between two
allocated ones: three 100-byte allocations (payloads 1088, 1264, 1440)
followed by a free of the middle one. -/
def scanScenario : AllocState :=
  (m61_free
    (m61_malloc (m61_malloc (m61_malloc initState 100 "a" 1).2 100 "a" 2).2
      100 "a" 3).2
    1264 "f" 4).2

/-- Once the scan of `report_ptr_inside_alloc_block` reaches a node whose
status is not `ALLOCATED`, the `continue` branch re-tests the same node
forever: no amount of fuel finishes the loop. -/
theorem report_scan_stuck (ptr : Nat) (h : Header) (rest : List Header)
    (hst : h.p_status ≠ ALLOCATED) :
    ∀ fuel, report_ptr_inside_alloc_block ptr fuel (h :: rest) = none
  | 0 => rfl
  | fuel + 1 => by
    unfold report_ptr_inside_alloc_block
    rw [if_pos hst]
    exact report_scan_stuck ptr h rest hst fuel

/-- C4: the claim says the scan locating the enclosing allocated block
terminates; but for the pointer 1104 — 16 bytes inside the live 100-byte
allocation at payload 1088 of `scanScenario` — the scan walks past the
allocated block at 1440, hits the free block at 1200, and then loops
forever without advancing: it returns no report no matter how much fuel it
is given. -/
theorem report_scan_never_terminates (fuel : Nat) :
    report_ptr_inside_alloc_block 1104 fuel scanScenario.blocks = none := by
  have hb : scanScenario.blocks =
      [{ addr := 1376, block_size := 176, p_payload := 1440,
         p_end_marker := 1540, p_status := ALLOCATED, p_file := "a", line := 3 },
       { addr := 1200, block_size := 176, p_payload := 1264,
         p_end_marker := 0, p_status := FREE, p_file := "f", line := 4 },
       { addr := 1024, block_size := 176, p_payload := 1088,
         p_end_marker := 1188, p_status := ALLOCATED, p_file := "a", line := 1 }] := by
    decide
  rw [hb]
  cases fuel with
  | zero => rfl
  | succ n =>
    unfold report_ptr_inside_alloc_block
    rw [if_neg (by decide), if_neg (by decide)]
    exact report_scan_stuck 1104 _ _ (by decide) n

/-!  Claim C7. -/

/-- Spec-side description for the search fallback (following the spec's
words, to be compared with `find_freed_block`): the index of the first
`Free` block of the list whose block size is at least the required size. -/
def firstFitIdx (required : Nat) : List Header → Option Nat
  | [] => none
  | h :: rest =>
    if h.p_status = FREE ∧ required ≤ h.block_size then some 0
    else (firstFitIdx required rest).map (fun i => i + 1)

theorem find_freed_block_of_firstFitIdx_none (required psz : Nat) (f : String)
    (l : Nat) :
    ∀ bl : List Header, firstFitIdx required bl = none →
      find_freed_block required psz f l bl = none := by
  intro bl
  induction bl with
  | nil => intro _; rfl
  | cons x rest ih =>
    intro hff
    unfold firstFitIdx at hff
    unfold find_freed_block
    by_cases hfit : x.p_status = FREE ∧ required ≤ x.block_size
    · rw [if_pos hfit] at hff; exact absurd hff (by simp)
    · rw [if_neg hfit] at hff
      rw [if_neg hfit, ih (by simpa using hff)]

theorem find_freed_block_of_firstFitIdx_some (required psz : Nat) (f : String)
    (l : Nat) :
    ∀ (bl : List Header) (i : Nat) (h : Header),
      firstFitIdx required bl = some i → bl.get? i = some h →
      find_freed_block required psz f l bl
        = some (h.addr + HEADER_SIZE,
            bl.take i
              ++ split_block (generate_alloc_block h.addr h.block_size psz f l)
                   required
              ++ bl.drop (i + 1)) := by
  intro bl
  induction bl with
  | nil => intro i h hff; simp [firstFitIdx] at hff
  | cons x rest ih =>
    intro i h hff hget
    unfold firstFitIdx at hff
    unfold find_freed_block
    by_cases hfit : x.p_status = FREE ∧ required ≤ x.block_size
    · rw [if_pos hfit] at hff
      have hi : i = 0 := by simpa using hff.symm
      subst hi
      have hx : h = x := by simpa using hget.symm
      subst hx
      rw [if_pos hfit]
      rfl
    · rw [if_neg hfit] at hff
      rw [if_neg hfit]
      cases hrest : firstFitIdx required rest with
      | none => rw [hrest] at hff; exact absurd hff (by simp)
      | some j =>
        rw [hrest] at hff
        have hi : i = j + 1 := by simpa using hff.symm
        subst hi
        have hget2 : rest.get? j = some h := by simpa using hget
        rw [ih j h hrest hget2]
        rfl

/-- C7: every allocation first tries the arena frontier — whenever the
remaining capacity is at least the computed block size, the block is
carved there and the frontier advances — and only otherwise scans the
block list for the first `Free` block whose block size is at least the
required size (`firstFitIdx`); when such a block is found and the leftover
is at least `MIN_BLOCK_SIZE`, a new `Free` block is carved from the tail
of the found region and inserted immediately before the block's list
position, and the found block is converted to `ALLOCATED` and shrunk to
exactly the required size. -/
theorem allocation_policy (s : AllocState) (bs psz : Nat) (f : String)
    (l : Nat) :
    (bs ≤ BUFFER_SIZE - s.pos →
      find_free_space s bs psz f l
        = (some (BUF_BASE + s.pos + HEADER_SIZE),
           { s with
             blocks := generate_alloc_block (BUF_BASE + s.pos) bs psz f l
                         :: s.blocks,
             pos := s.pos + bs })) ∧
    (¬ bs ≤ BUFFER_SIZE - s.pos →
      (firstFitIdx bs s.blocks = none → find_free_space s bs psz f l = (none, s)) ∧
      (∀ i h, firstFitIdx bs s.blocks = some i → s.blocks.get? i = some h →
        MIN_BLOCK_SIZE ≤ h.block_size - bs →
        find_free_space s bs psz f l
          = (some (h.addr + HEADER_SIZE),
             { s with blocks :=
                 s.blocks.take i
                   ++ [generate_free_block (h.addr + bs) (h.block_size - bs) f l,
                       { addr := h.addr, block_size := bs,
                         p_payload := h.addr + HEADER_SIZE,
                         p_end_marker := h.addr + HEADER_SIZE + psz,
                         p_status := ALLOCATED, p_file := f, line := l }]
                   ++ s.blocks.drop (i + 1) }))) := by
  constructor
  · intro hcap
    unfold find_free_space
    rw [if_pos hcap]
  · intro hcap
    constructor
    · intro hff
      unfold find_free_space
      rw [if_neg hcap, find_freed_block_of_firstFitIdx_none bs psz f l s.blocks hff]
    · intro i h hff hget hres
      unfold find_free_space
      rw [if_neg hcap,
          find_freed_block_of_firstFitIdx_some bs psz f l s.blocks i h hff hget]
      unfold split_block
      rw [if_neg (by simpa using hres)]
      rfl

/-- Witness for `allocation_policy`: with the frontier exhausted and one
256-byte free block at address 1024, an 80-byte request reuses it, splits
off a 176-byte free tail block at 1104 and shrinks the found block to 80
bytes. -/
theorem allocation_policy_witness :
    find_free_space
      { blocks := [{ addr := 1024, block_size := 256, p_payload := 1088,
                     p_end_marker := 0, p_status := FREE, p_file := "x", line := 1 }],
        tombs := [], pos := BUFFER_SIZE,
        stats := initState.stats } 80 4 "m" 2
      = (some 1088,
         { blocks := [{ addr := 1104, block_size := 176, p_payload := 1168,
                        p_end_marker := 0, p_status := FREE, p_file := "m", line := 2 },
                      { addr := 1024, block_size := 80, p_payload := 1088,
                        p_end_marker := 1092, p_status := ALLOCATED, p_file := "m",
                        line := 2 }],
           tombs := [], pos := BUFFER_SIZE,
           stats := initState.stats }) := by
  have h := (allocation_policy
    { blocks := [{ addr := 1024, block_size := 256, p_payload := 1088,
                   p_end_marker := 0, p_status := FREE, p_file := "x", line := 1 }],
      tombs := [], pos := BUFFER_SIZE,
      stats := initState.stats } 80 4 "m" 2).2 (by decide)
  have h2 := h.2 0
    { addr := 1024, block_size := 256, p_payload := 1088,
      p_end_marker := 0, p_status := FREE, p_file := "x", line := 1 }
    (by decide) (by decide) (by decide)
  rw [h2]
  decide

/-!  Claim C8: helper lemmas. -/

theorem free_locate_spec (haddr : Nat) :
    ∀ (l pre : List Header) (b : Header) (post : List Header),
      free_locate haddr l = some (pre, b, post) →
      l = pre ++ b :: post ∧ b.addr = haddr := by
  intro l
  induction l with
  | nil => intro pre b post h; simp [free_locate] at h
  | cons x rest ih =>
    intro pre b post h
    unfold free_locate at h
    by_cases hx : x.addr = haddr
    · rw [if_pos hx] at h
      simp only [Option.some.injEq, Prod.mk.injEq] at h
      obtain ⟨h1, h2, h3⟩ := h
      subst h1; subst h2; subst h3
      exact ⟨rfl, hx⟩
    · rw [if_neg hx] at h
      cases hr : free_locate haddr rest with
      | none => rw [hr] at h; exact absurd h (by simp)
      | some z =>
        obtain ⟨pre1, b1, post1⟩ := z
        rw [hr] at h
        simp only [Option.some.injEq, Prod.mk.injEq] at h
        obtain ⟨h1, h2, h3⟩ := h
        subst h1; subst h2; subst h3
        obtain ⟨ih1, ih2⟩ := ih pre1 b1 post1 hr
        exact ⟨by rw [ih1]; rfl, ih2⟩

theorem free_locate_of_not_mem (haddr : Nat) :
    ∀ l : List Header, (∀ x ∈ l, x.addr ≠ haddr) →
      free_locate haddr l = none := by
  intro l
  induction l with
  | nil => intro _; rfl
  | cons x rest ih =>
    intro hmem
    unfold free_locate
    rw [if_neg (hmem x (by simp)), ih (fun y hy => hmem y (by simp [hy]))]

theorem free_locate_append (haddr : Nat) :
    ∀ (x : List Header) (b : Header) (y : List Header),
      (∀ g ∈ x, g.addr ≠ haddr) → b.addr = haddr →
      free_locate haddr (x ++ b :: y) = some (x, b, y) := by
  intro x
  induction x with
  | nil =>
    intro b y _ hb
    show free_locate haddr (b :: y) = _
    unfold free_locate
    rw [if_pos hb]
  | cons g rest ih =>
    intro b y hmem hb
    show free_locate haddr (g :: (rest ++ b :: y)) = _
    unfold free_locate
    rw [if_neg (hmem g (by simp)),
        ih b y (fun z hz => hmem z (by simp [hz])) hb]

theorem nodup_addr_split (l1 : List Header) (b : Header) (l2 : List Header)
    (h : ((l1 ++ b :: l2).map Header.addr).Nodup) :
    (∀ x ∈ l1, x.addr ≠ b.addr) ∧ (∀ x ∈ l2, x.addr ≠ b.addr) := by
  rw [List.map_append, List.nodup_append] at h
  obtain ⟨_, h2, hdisj⟩ := h
  constructor
  · intro x hx heq
    exact hdisj (List.mem_map_of_mem _ hx)
      (by rw [List.map_cons, heq]; exact List.mem_cons_self _ _)
  · intro x hx heq
    rw [List.map_cons, List.nodup_cons] at h2
    exact h2.1 (heq ▸ List.mem_map_of_mem _ hx)

theorem move_buffer_pos_stats (s : AllocState) :
    (move_buffer_pos s).stats = s.stats := by
  unfold move_buffer_pos
  cases s.blocks with
  | nil => rfl
  | cons h rest =>
    by_cases hA : h.p_status = ALLOCATED
    · simp [hA]
    · simp [hA]

/-- Evaluation of `m61_free` on its normal path (all validations pass). -/
theorem m61_free_ok_eq (s : AllocState) (ptr : Nat) (f : String) (l : Nat)
    (pre : List Header) (b : Header) (post : List Header)
    (hz : ptr ≠ 0)
    (hr : ¬ (ptr < s.stats.heap_min ∨ ptr > s.stats.heap_max))
    (hloc : free_locate (ptr - HEADER_SIZE) s.blocks = some (pre, b, post))
    (hv : is_header_valid b ptr)
    (hA : b.p_status = ALLOCATED) :
    m61_free s ptr f l
      = (FreeOutcome.ok, move_buffer_pos
          { s with
            blocks := (coalesce pre
              (generate_free_block (ptr - HEADER_SIZE) b.block_size f l)
              post).1,
            tombs := (coalesce pre
              (generate_free_block (ptr - HEADER_SIZE) b.block_size f l)
              post).2 ++ s.tombs,
            stats := remove_from_statistics s.stats (get_payload_size b) }) := by
  unfold m61_free
  rw [if_neg hz, if_neg hr]
  simp only [hloc]
  rw [if_neg (not_not_intro hv), if_neg (not_not_intro hA)]

/-- When `m61_free` recovers a header whose status is `FREE` — whether the
block is still linked in the list or only its stale header remains in
memory — it reports a double free and aborts. -/
theorem free_on_free_header (s2 : AllocState) (ptr : Nat) (f2 : String)
    (l2 : Nat) (h2 : Header)
    (hz : ptr ≠ 0)
    (hr : ¬ (ptr < s2.stats.heap_min ∨ ptr > s2.stats.heap_max))
    (hvst : is_header_valid h2 ptr) (hfr : h2.p_status = FREE)
    (hcase :
      (∃ pre2 post2,
        free_locate (ptr - HEADER_SIZE) s2.blocks = some (pre2, h2, post2)) ∨
      (free_locate (ptr - HEADER_SIZE) s2.blocks = none ∧
        s2.tombs.find? (fun g => g.addr == ptr - HEADER_SIZE) = some h2)) :
    (m61_free s2 ptr f2 l2).1 = FreeOutcome.abortDoubleFree := by
  have hnA : h2.p_status ≠ ALLOCATED := by rw [hfr]; decide
  unfold m61_free
  rw [if_neg hz, if_neg hr]
  rcases hcase with ⟨pre2, post2, hl⟩ | ⟨hl, hf⟩
  · simp only [hl]
    rw [if_neg (not_not_intro hvst), if_pos hnA, if_pos hfr]
  · simp only [hl, hf]
    rw [if_neg (not_not_intro hvst), if_pos hnA, if_pos hfr]

theorem find_addr_first (haddr : Nat) :
    ∀ (x : List Header) (b : Header) (y : List Header),
      (∀ g ∈ x, g.addr ≠ haddr) → b.addr = haddr →
      (x ++ b :: y).find? (fun g => g.addr == haddr) = some b := by
  intro x
  induction x with
  | nil =>
    intro b y _ hb
    show (b :: y).find? _ = some b
    exact List.find?_cons_of_pos _ (by simp [hb])
  | cons g rest ih =>
    intro b y hmem hb
    show (g :: (rest ++ b :: y)).find? _ = some b
    rw [List.find?_cons_of_neg _ (by simp [hmem g (by simp)])]
    exact ih b y (fun z hz => hmem z (by simp [hz])) hb

theorem move_buffer_pos_alloc_head (s : AllocState) (p0 : Header)
    (rest : List Header) (hb : s.blocks = p0 :: rest)
    (hA : p0.p_status = ALLOCATED) : move_buffer_pos s = s := by
  unfold move_buffer_pos
  simp only [hb]
  rw [if_pos hA]

theorem move_buffer_pos_nonalloc_head (s : AllocState) (p0 : Header)
    (rest : List Header) (hb : s.blocks = p0 :: rest)
    (hA : ¬ p0.p_status = ALLOCATED) :
    move_buffer_pos s
      = { s with pos := s.pos - p0.block_size, blocks := rest,
                 tombs := p0 :: s.tombs } := by
  unfold move_buffer_pos
  simp only [hb]
  rw [if_neg hA]

/-- After the first free left the freed header (still `FREE`) linked in the
block list, the second free of the same pointer reports a double free. -/
theorem second_free_linked (ptr : Nat) (f2 : String) (l2 : Nat)
    (pre1 : List Header) (h1v : Header) (rest tmb : List Header) (P : Nat)
    (st : Stats)
    (hz : ptr ≠ 0)
    (hrs : ¬ (ptr < st.heap_min ∨ ptr > st.heap_max))
    (hpre1N : ∀ x ∈ pre1, x.addr ≠ ptr - HEADER_SIZE)
    (hrestN : ∀ x ∈ rest, x.addr ≠ ptr - HEADER_SIZE)
    (h1addr : h1v.addr = ptr - HEADER_SIZE)
    (h1st : h1v.p_status = FREE)
    (h1valid : is_header_valid h1v ptr) :
    (m61_free (move_buffer_pos
        { blocks := pre1 ++ h1v :: rest, tombs := tmb, pos := P, stats := st })
      ptr f2 l2).1 = FreeOutcome.abortDoubleFree := by
  cases pre1 with
  | nil =>
    rw [move_buffer_pos_nonalloc_head _ h1v rest rfl (by rw [h1st]; decide)]
    apply free_on_free_header _ _ _ _ h1v hz hrs h1valid h1st
    right
    exact ⟨free_locate_of_not_mem _ rest hrestN,
      List.find?_cons_of_pos _ (by simp [h1addr])⟩
  | cons p0 pre1t =>
    by_cases hA0 : p0.p_status = ALLOCATED
    · rw [move_buffer_pos_alloc_head _ p0 (pre1t ++ h1v :: rest) rfl hA0]
      apply free_on_free_header _ _ _ _ h1v hz hrs h1valid h1st
      left
      exact ⟨p0 :: pre1t, rest,
        free_locate_append _ (p0 :: pre1t) h1v rest hpre1N h1addr⟩
    · rw [move_buffer_pos_nonalloc_head _ p0 (pre1t ++ h1v :: rest) rfl hA0]
      apply free_on_free_header _ _ _ _ h1v hz hrs h1valid h1st
      left
      exact ⟨pre1t, rest,
        free_locate_append _ pre1t h1v rest
          (fun x hx => hpre1N x (by simp [hx])) h1addr⟩

/-- After the first free unlinked the freed header (merging it into its
list successor), its stale `FREE` header is the newest matching entry in
arena memory, and the second free of the same pointer still reports a
double free. -/
theorem second_free_unlinked (ptr : Nat) (f2 : String) (l2 : Nat)
    (bl : List Header) (h1v : Header) (tmb : List Header) (P : Nat)
    (st : Stats)
    (hz : ptr ≠ 0)
    (hrs : ¬ (ptr < st.heap_min ∨ ptr > st.heap_max))
    (hblN : ∀ x ∈ bl, x.addr ≠ ptr - HEADER_SIZE)
    (h1addr : h1v.addr = ptr - HEADER_SIZE)
    (h1st : h1v.p_status = FREE)
    (h1valid : is_header_valid h1v ptr) :
    (m61_free (move_buffer_pos
        { blocks := bl, tombs := h1v :: tmb, pos := P, stats := st })
      ptr f2 l2).1 = FreeOutcome.abortDoubleFree := by
  cases bl with
  | nil =>
    apply free_on_free_header _ _ _ _ h1v hz hrs h1valid h1st
    right
    exact ⟨rfl, List.find?_cons_of_pos _ (by simp [h1addr])⟩
  | cons x xs =>
    by_cases hA0 : x.p_status = ALLOCATED
    · rw [move_buffer_pos_alloc_head _ x xs rfl hA0]
      apply free_on_free_header _ _ _ _ h1v hz hrs h1valid h1st
      right
      exact ⟨free_locate_of_not_mem _ _ hblN,
        List.find?_cons_of_pos _ (by simp [h1addr])⟩
    · rw [move_buffer_pos_nonalloc_head _ x xs rfl hA0]
      apply free_on_free_header _ _ _ _ h1v hz hrs h1valid h1st
      right
      constructor
      · exact free_locate_of_not_mem _ xs (fun g hg => hblN g (by simp [hg]))
      · rw [List.find?_cons_of_neg _ (by simp [hblN x (by simp)])]
        exact List.find?_cons_of_pos _ (by simp [h1addr])

/-- C8: calling `m61_free` twice on the same payload pointer of a live
allocation — with no intervening operation — succeeds the first time and
aborts with the double-free diagnostic on the second call, whether the
freed block stayed in the list, was merged away by coalescing, or was
reclaimed by frontier retraction (its stale header remains in memory).
The hypotheses say that `ptr` is a plausible payload pointer
(`HEADER_SIZE ≤ ptr`), that header addresses in the state are distinct (as
they are for disjoint blocks in real memory), and that the first free
returned normally. -/
theorem double_free_aborts (s : AllocState) (ptr : Nat) (f1 f2 : String)
    (l1 l2 : Nat)
    (hp : HEADER_SIZE ≤ ptr)
    (hnd : ((s.blocks ++ s.tombs).map Header.addr).Nodup)
    (h1 : (m61_free s ptr f1 l1).1 = FreeOutcome.ok) :
    (m61_free (m61_free s ptr f1 l1).2 ptr f2 l2).1
      = FreeOutcome.abortDoubleFree := by
  have hz : ptr ≠ 0 := by
    intro h0
    unfold m61_free at h1
    rw [if_pos h0] at h1
    simp at h1
  have hr : ¬ (ptr < s.stats.heap_min ∨ ptr > s.stats.heap_max) := by
    intro hcon
    unfold m61_free at h1
    rw [if_neg hz, if_pos hcon] at h1
    simp at h1
  obtain ⟨pre, b, post, hloc⟩ :
      ∃ pre b post,
        free_locate (ptr - HEADER_SIZE) s.blocks = some (pre, b, post) := by
    cases hl : free_locate (ptr - HEADER_SIZE) s.blocks with
    | some z =>
      obtain ⟨pre, b, post⟩ := z
      exact ⟨pre, b, post, rfl⟩
    | none =>
      exfalso
      unfold m61_free at h1
      rw [if_neg hz, if_neg hr] at h1
      simp only [hl] at h1
      cases hf : s.tombs.find? (fun g => g.addr == ptr - HEADER_SIZE) with
      | none => simp only [hf] at h1; simp at h1
      | some g =>
        simp only [hf] at h1
        by_cases hvg : is_header_valid g ptr
        · rw [if_neg (not_not_intro hvg)] at h1
          by_cases hag : g.p_status = ALLOCATED
          · rw [if_neg (not_not_intro hag)] at h1
            simp at h1
          · rw [if_pos hag] at h1
            by_cases hfg : g.p_status = FREE
            · rw [if_pos hfg] at h1; simp at h1
            · rw [if_neg hfg] at h1; simp at h1
        · rw [if_pos hvg] at h1; simp at h1
  have hv : is_header_valid b ptr := by
    by_contra hnv
    unfold m61_free at h1
    rw [if_neg hz, if_neg hr] at h1
    simp only [hloc] at h1
    rw [if_pos hnv] at h1
    simp at h1
  have hA : b.p_status = ALLOCATED := by
    by_contra hnA
    unfold m61_free at h1
    rw [if_neg hz, if_neg hr] at h1
    simp only [hloc] at h1
    rw [if_neg (not_not_intro hv), if_pos hnA] at h1
    by_cases hfb : b.p_status = FREE
    · rw [if_pos hfb] at h1; simp at h1
    · rw [if_neg hfb] at h1; simp at h1
  have hfree := m61_free_ok_eq s ptr f1 l1 pre b post hz hr hloc hv hA
  obtain ⟨hsplit, hbaddr⟩ := free_locate_spec (ptr - HEADER_SIZE) s.blocks pre b post hloc
  have hnd2 : ((pre ++ b :: (post ++ s.tombs)).map Header.addr).Nodup := by
    rw [hsplit] at hnd
    simpa using hnd
  obtain ⟨hpreB, hrestB⟩ := nodup_addr_split pre b (post ++ s.tombs) hnd2
  have hpreN : ∀ x ∈ pre, x.addr ≠ ptr - HEADER_SIZE := by
    intro x hx; rw [← hbaddr]; exact hpreB x hx
  have hpostN : ∀ x ∈ post, x.addr ≠ ptr - HEADER_SIZE := by
    intro x hx; rw [← hbaddr]; exact hrestB x (List.mem_append_left _ hx)
  obtain ⟨pre1, h1v, t1, hcu, hpre1sub, h1addr, h1st, h1pay⟩ :
      ∃ pre1 h1v t1,
        coalesce_up pre
            (generate_free_block (ptr - HEADER_SIZE) b.block_size f1 l1)
          = (pre1, h1v, t1) ∧
        (∀ x ∈ pre1, x ∈ pre) ∧
        h1v.addr = ptr - HEADER_SIZE ∧ h1v.p_status = FREE ∧
        h1v.p_payload = ptr := by
    have hFpay : ptr - HEADER_SIZE + HEADER_SIZE = ptr := by
      unfold HEADER_SIZE at hp ⊢; omega
    cases hgl : pre.getLast? with
    | none =>
      exact ⟨pre, _, [], by unfold coalesce_up; rw [hgl],
        fun x hx => hx, rfl, rfl, hFpay⟩
    | some p =>
      by_cases hpf : p.p_status = FREE
      · exact ⟨pre.dropLast, _, [p],
          by unfold coalesce_up; simp only [hgl]; rw [if_pos hpf],
          fun x hx => (List.dropLast_sublist pre).subset hx, rfl, rfl, hFpay⟩
      · exact ⟨pre, _, [],
          by unfold coalesce_up; simp only [hgl]; rw [if_neg hpf],
          fun x hx => hx, rfl, rfl, hFpay⟩
  have h1valid : is_header_valid h1v ptr := by
    refine ⟨?_, Or.inr h1pay⟩
    rw [h1addr, ← hbaddr]
    exact hv.1
  have hpre1N : ∀ x ∈ pre1, x.addr ≠ ptr - HEADER_SIZE :=
    fun x hx => hpreN x (hpre1sub x hx)
  rw [hfree]
  have hco : coalesce pre
      (generate_free_block (ptr - HEADER_SIZE) b.block_size f1 l1) post
      = coalesce_down pre1 h1v t1 post := by
    unfold coalesce; rw [hcu]
  rw [hco]
  cases post with
  | nil =>
    have hcd : coalesce_down pre1 h1v t1 ([] : List Header)
        = (pre1 ++ [h1v], t1) := rfl
    rw [hcd]
    exact second_free_linked ptr f2 l2 pre1 h1v [] (t1 ++ s.tombs) s.pos
      (remove_from_statistics s.stats (get_payload_size b)) hz hr hpre1N
      (by intro x hx; exact absurd hx (List.not_mem_nil x)) h1addr h1st h1valid
  | cons n post1 =>
    by_cases hnf : n.p_status = FREE
    · have hcd : coalesce_down pre1 h1v t1 (n :: post1)
          = (pre1 ++ { n with block_size := n.block_size + h1v.block_size }
               :: post1, h1v :: t1) := by
        simp [coalesce_down, hnf]
      rw [hcd]
      apply second_free_unlinked ptr f2 l2 _ h1v (t1 ++ s.tombs) s.pos
        (remove_from_statistics s.stats (get_payload_size b)) hz hr _ h1addr
        h1st h1valid
      intro x hx
      rcases List.mem_append.mp hx with hx1 | hx2
      · exact hpre1N x hx1
      · rcases List.mem_cons.mp hx2 with hx3 | hx4
        · rw [hx3]
          exact hpostN n (List.mem_cons_self n post1)
        · exact hpostN x (List.mem_cons_of_mem n hx4)
    · have hcd : coalesce_down pre1 h1v t1 (n :: post1)
          = (pre1 ++ h1v :: n :: post1, t1) := by
        simp [coalesce_down, hnf]
      rw [hcd]
      exact second_free_linked ptr f2 l2 pre1 h1v (n :: post1) (t1 ++ s.tombs)
        s.pos (remove_from_statistics s.stats (get_payload_size b)) hz hr
        hpre1N
        (by
          intro x hx
          rcases List.mem_cons.mp hx with hx1 | hx2
          · rw [hx1]; exact hpostN n (List.mem_cons_self n post1)
          · exact hpostN x (List.mem_cons_of_mem n hx2))
        h1addr h1st h1valid

/-- Witness for `double_free_aborts`: allocate 100 bytes and free the
returned pointer twice. -/
theorem double_free_aborts_witness :
    (m61_free (m61_free (m61_malloc initState 100 "main" 1).2
        (BUF_BASE + HEADER_SIZE) "main" 2).2 (BUF_BASE + HEADER_SIZE)
      "main" 3).1 = FreeOutcome.abortDoubleFree :=
  double_free_aborts (m61_malloc initState 100 "main" 1).2
    (BUF_BASE + HEADER_SIZE) "main" "main" 2 3 (by decide) (by decide)
    (by decide)

/-!  Claim C5. -/

/-- The effect of `move_buffer_pos` on the block list alone. -/
def moveBlocks : List Header → List Header
  | [] => []
  | h :: rest => if h.p_status = ALLOCATED then h :: rest else rest

theorem move_buffer_pos_blocks (s : AllocState) :
    (move_buffer_pos s).blocks = moveBlocks s.blocks := by
  cases hb : s.blocks with
  | nil =>
    have h1 : move_buffer_pos s = s := by unfold move_buffer_pos; rw [hb]
    rw [h1, hb]
    rfl
  | cons h rest =>
    by_cases hA : h.p_status = ALLOCATED
    · rw [move_buffer_pos_alloc_head s h rest hb hA]
      simp [moveBlocks, hb, hA]
    · rw [move_buffer_pos_nonalloc_head s h rest hb hA]
      simp [moveBlocks, hb, hA]

/-- A normal `m61_free`, projected to what later operations can observe:
the new block list, and the heap bounds, which freeing never changes. -/
theorem free_step_proj (s : AllocState) (ptr : Nat) (f : String) (l : Nat)
    (pre : List Header) (b : Header) (post : List Header)
    (hz : ptr ≠ 0)
    (hr : ¬ (ptr < s.stats.heap_min ∨ ptr > s.stats.heap_max))
    (hloc : free_locate (ptr - HEADER_SIZE) s.blocks = some (pre, b, post))
    (hv : is_header_valid b ptr)
    (hA : b.p_status = ALLOCATED) :
    (m61_free s ptr f l).2.blocks
      = moveBlocks (coalesce pre
          (generate_free_block (ptr - HEADER_SIZE) b.block_size f l) post).1 ∧
    (m61_free s ptr f l).2.stats.heap_min = s.stats.heap_min ∧
    (m61_free s ptr f l).2.stats.heap_max = s.stats.heap_max := by
  rw [m61_free_ok_eq s ptr f l pre b post hz hr hloc hv hA]
  refine ⟨move_buffer_pos_blocks _, ?_, ?_⟩
  · rw [move_buffer_pos_stats]
    rfl
  · rw [move_buffer_pos_stats]
    rfl

/-- A reachable-shaped state whose list holds three allocated blocks in
adjacent memory (`b1` at `a` of size `s1`, `b2` at `a + s1` of size `s2`,
`b3` at `a + s1 + s2` of size `s3`) below an allocated guard block `w` at
the frontier; numerals are the LP64 constants (header 64, guard 8): each
block's payload runs from `addr + 64` to `addr + block_size - 8`. -/
def threeBlocksState (a s1 s2 s3 sw : Nat) : AllocState :=
  { blocks :=
      [⟨a + s1 + s2 + s3, sw, a + s1 + s2 + s3 + 64,
        a + s1 + s2 + s3 + sw - 8, ALLOCATED, "w", 0⟩,
       ⟨a + s1 + s2, s3, a + s1 + s2 + 64, a + s1 + s2 + s3 - 8, ALLOCATED, "b3", 0⟩,
       ⟨a + s1, s2, a + s1 + 64, a + s1 + s2 - 8, ALLOCATED, "b2", 0⟩,
       ⟨a, s1, a + 64, a + s1 - 8, ALLOCATED, "b1", 0⟩],
    tombs := [],
    pos := a + s1 + s2 + s3 + sw - BUF_BASE,
    stats :=
      { nactive := 4,
        active_size := (s1 - 72) + (s2 - 72) + (s3 - 72) + (sw - 72),
        ntotal := 4, total_size := (s1 - 72) + (s2 - 72) + (s3 - 72) + (sw - 72),
        nfail := 0, fail_size := 0,
        heap_min := a + 64,
        heap_max := a + s1 + s2 + s3 + sw - 8 } }

/-- Free each pointer of the list in turn. -/
def freeAll (s : AllocState) : List Nat → AllocState
  | [] => s
  | p :: ps => freeAll (m61_free s p "f" 9).2 ps

/-- The six permutations in which three pointers can be freed. -/
def sixOrders (p q r : Nat) : List (List Nat) :=
  [[p, q, r], [p, r, q], [q, p, r], [q, r, p], [r, p, q], [r, q, p]]

theorem coalesceOrder1 (a s1 s2 s3 sw : Nat)
    (ha : a % 16 = 0) (hs1 : s1 % 16 = 0) (hs2 : s2 % 16 = 0)
    (hb1 : 80 ≤ s1) (hb2 : 80 ≤ s2) (hb3 : 80 ≤ s3) (hbw : 80 ≤ sw) :
    (freeAll (threeBlocksState a s1 s2 s3 sw) [a + 64, a + s1 + 64, a + s1 + s2 + 64]).blocks
      = [⟨a + s1 + s2 + s3, sw, a + s1 + s2 + s3 + 64,
          a + s1 + s2 + s3 + sw - 8, ALLOCATED, "w", 0⟩,
         ⟨a, s1 + s2 + s3, a + 64, 0, FREE, "f", 9⟩] := by
  have hAF : ¬ (ALLOCATED = FREE) := by decide
  have hFA : ¬ (FREE = ALLOCATED) := by decide
  simp only [freeAll]
  -- step 1: free the block at header address a
  have A1 := free_step_proj (threeBlocksState a s1 s2 s3 sw) (a + 64) "f" 9
    [⟨a + s1 + s2 + s3, sw, a + s1 + s2 + s3 + 64, a + s1 + s2 + s3 + sw - 8, ALLOCATED, "w", 0⟩,
       ⟨a + s1 + s2, s3, a + s1 + s2 + 64, a + s1 + s2 + s3 - 8, ALLOCATED, "b3", 0⟩,
       ⟨a + s1, s2, a + s1 + 64, a + s1 + s2 - 8, ALLOCATED, "b2", 0⟩]
    ⟨a, s1, a + 64, a + s1 - 8, ALLOCATED, "b1", 0⟩
    []
    (by omega)
    (by show ¬ (a + 64 < a + 64 ∨ a + 64 > a + s1 + s2 + s3 + sw - 8); omega)
    (by
      simp [threeBlocksState, HEADER_SIZE]
      exact free_locate_append (a)
        [⟨a + s1 + s2 + s3, sw, a + s1 + s2 + s3 + 64, a + s1 + s2 + s3 + sw - 8, ALLOCATED, "w", 0⟩,
       ⟨a + s1 + s2, s3, a + s1 + s2 + 64, a + s1 + s2 + s3 - 8, ALLOCATED, "b3", 0⟩,
       ⟨a + s1, s2, a + s1 + 64, a + s1 + s2 - 8, ALLOCATED, "b2", 0⟩]
        ⟨a, s1, a + 64, a + s1 - 8, ALLOCATED, "b1", 0⟩
        []
        (by intro g hg
            rcases (by simpa using hg : g = _ ∨ g = _ ∨ g = _) with rfl | rfl | rfl
            · show ¬ (a + s1 + s2 + s3 = a); omega
            · show ¬ (a + s1 + s2 = a); omega
            · show ¬ (a + s1 = a); omega
            )
        rfl
      )
    (by
      refine ⟨?_, Or.inr ?_⟩
      · show (a) % 16 = 0; omega
      · rfl)
    rfl
  -- step 2: free the block at header address a + s1
  have A2 := free_step_proj ((m61_free (threeBlocksState a s1 s2 s3 sw) (a + 64) "f" 9).2) (a + s1 + 64) "f" 9
    [⟨a + s1 + s2 + s3, sw, a + s1 + s2 + s3 + 64, a + s1 + s2 + s3 + sw - 8, ALLOCATED, "w", 0⟩,
       ⟨a + s1 + s2, s3, a + s1 + s2 + 64, a + s1 + s2 + s3 - 8, ALLOCATED, "b3", 0⟩]
    ⟨a + s1, s2, a + s1 + 64, a + s1 + s2 - 8, ALLOCATED, "b2", 0⟩
    [⟨a, s1, a + 64, 0, FREE, "f", 9⟩]
    (by omega)
    (by rw [A1.2.1, A1.2.2]
        show ¬ (a + s1 + 64 < a + 64 ∨ a + s1 + 64 > a + s1 + s2 + s3 + sw - 8); omega)
    (by
      rw [A1.1]
      simp [coalesce, coalesce_up, coalesce_down, hAF, hFA]
      simp [moveBlocks, generate_free_block, HEADER_SIZE]
      exact free_locate_append (a + s1)
        [⟨a + s1 + s2 + s3, sw, a + s1 + s2 + s3 + 64, a + s1 + s2 + s3 + sw - 8, ALLOCATED, "w", 0⟩,
       ⟨a + s1 + s2, s3, a + s1 + s2 + 64, a + s1 + s2 + s3 - 8, ALLOCATED, "b3", 0⟩]
        ⟨a + s1, s2, a + s1 + 64, a + s1 + s2 - 8, ALLOCATED, "b2", 0⟩
        [⟨a, s1, a + 64, 0, FREE, "f", 9⟩]
        (by intro g hg
            rcases (by simpa using hg : g = _ ∨ g = _) with rfl | rfl
            · show ¬ (a + s1 + s2 + s3 = a + s1); omega
            · show ¬ (a + s1 + s2 = a + s1); omega
            )
        rfl
      )
    (by
      refine ⟨?_, Or.inr ?_⟩
      · show (a + s1) % 16 = 0; omega
      · rfl)
    rfl
  -- step 3: free the block at header address a + s1 + s2
  have A3 := free_step_proj ((m61_free ((m61_free (threeBlocksState a s1 s2 s3 sw) (a + 64) "f" 9).2) (a + s1 + 64) "f" 9).2) (a + s1 + s2 + 64) "f" 9
    [⟨a + s1 + s2 + s3, sw, a + s1 + s2 + s3 + 64, a + s1 + s2 + s3 + sw - 8, ALLOCATED, "w", 0⟩]
    ⟨a + s1 + s2, s3, a + s1 + s2 + 64, a + s1 + s2 + s3 - 8, ALLOCATED, "b3", 0⟩
    [⟨a, s1 + s2, a + 64, 0, FREE, "f", 9⟩]
    (by omega)
    (by rw [A2.2.1, A2.2.2, A1.2.1, A1.2.2]
        show ¬ (a + s1 + s2 + 64 < a + 64 ∨ a + s1 + s2 + 64 > a + s1 + s2 + s3 + sw - 8); omega)
    (by
      rw [A2.1]
      simp [coalesce, coalesce_up, coalesce_down, hAF, hFA]
      simp [moveBlocks, generate_free_block, HEADER_SIZE]
      exact free_locate_append (a + s1 + s2)
        [⟨a + s1 + s2 + s3, sw, a + s1 + s2 + s3 + 64, a + s1 + s2 + s3 + sw - 8, ALLOCATED, "w", 0⟩]
        ⟨a + s1 + s2, s3, a + s1 + s2 + 64, a + s1 + s2 + s3 - 8, ALLOCATED, "b3", 0⟩
        [⟨a, s1 + s2, a + 64, 0, FREE, "f", 9⟩]
        (by intro g hg
            rcases (by simpa using hg : g = _) with rfl
            · show ¬ (a + s1 + s2 + s3 = a + s1 + s2); omega
            )
        rfl
      )
    (by
      refine ⟨?_, Or.inr ?_⟩
      · show (a + s1 + s2) % 16 = 0; omega
      · rfl)
    rfl
  rw [A3.1]
  simp [coalesce, coalesce_up, coalesce_down, hAF, hFA]
  simp [moveBlocks, generate_free_block, HEADER_SIZE]
  try omega

theorem coalesceOrder2 (a s1 s2 s3 sw : Nat)
    (ha : a % 16 = 0) (hs1 : s1 % 16 = 0) (hs2 : s2 % 16 = 0)
    (hb1 : 80 ≤ s1) (hb2 : 80 ≤ s2) (hb3 : 80 ≤ s3) (hbw : 80 ≤ sw) :
    (freeAll (threeBlocksState a s1 s2 s3 sw) [a + 64, a + s1 + s2 + 64, a + s1 + 64]).blocks
      = [⟨a + s1 + s2 + s3, sw, a + s1 + s2 + s3 + 64,
          a + s1 + s2 + s3 + sw - 8, ALLOCATED, "w", 0⟩,
         ⟨a, s1 + s2 + s3, a + 64, 0, FREE, "f", 9⟩] := by
  have hAF : ¬ (ALLOCATED = FREE) := by decide
  have hFA : ¬ (FREE = ALLOCATED) := by decide
  simp only [freeAll]
  -- step 1: free the block at header address a
  have A1 := free_step_proj (threeBlocksState a s1 s2 s3 sw) (a + 64) "f" 9
    [⟨a + s1 + s2 + s3, sw, a + s1 + s2 + s3 + 64, a + s1 + s2 + s3 + sw - 8, ALLOCATED, "w", 0⟩,
       ⟨a + s1 + s2, s3, a + s1 + s2 + 64, a + s1 + s2 + s3 - 8, ALLOCATED, "b3", 0⟩,
       ⟨a + s1, s2, a + s1 + 64, a + s1 + s2 - 8, ALLOCATED, "b2", 0⟩]
    ⟨a, s1, a + 64, a + s1 - 8, ALLOCATED, "b1", 0⟩
    []
    (by omega)
    (by show ¬ (a + 64 < a + 64 ∨ a + 64 > a + s1 + s2 + s3 + sw - 8); omega)
    (by
      simp [threeBlocksState, HEADER_SIZE]
      exact free_locate_append (a)
        [⟨a + s1 + s2 + s3, sw, a + s1 + s2 + s3 + 64, a + s1 + s2 + s3 + sw - 8, ALLOCATED, "w", 0⟩,
       ⟨a + s1 + s2, s3, a + s1 + s2 + 64, a + s1 + s2 + s3 - 8, ALLOCATED, "b3", 0⟩,
       ⟨a + s1, s2, a + s1 + 64, a + s1 + s2 - 8, ALLOCATED, "b2", 0⟩]
        ⟨a, s1, a + 64, a + s1 - 8, ALLOCATED, "b1", 0⟩
        []
        (by intro g hg
            rcases (by simpa using hg : g = _ ∨ g = _ ∨ g = _) with rfl | rfl | rfl
            · show ¬ (a + s1 + s2 + s3 = a); omega
            · show ¬ (a + s1 + s2 = a); omega
            · show ¬ (a + s1 = a); omega
            )
        rfl
      )
    (by
      refine ⟨?_, Or.inr ?_⟩
      · show (a) % 16 = 0; omega
      · rfl)
    rfl
  -- step 2: free the block at header address a + s1 + s2
  have A2 := free_step_proj ((m61_free (threeBlocksState a s1 s2 s3 sw) (a + 64) "f" 9).2) (a + s1 + s2 + 64) "f" 9
    [⟨a + s1 + s2 + s3, sw, a + s1 + s2 + s3 + 64, a + s1 + s2 + s3 + sw - 8, ALLOCATED, "w", 0⟩]
    ⟨a + s1 + s2, s3, a + s1 + s2 + 64, a + s1 + s2 + s3 - 8, ALLOCATED, "b3", 0⟩
    [⟨a + s1, s2, a + s1 + 64, a + s1 + s2 - 8, ALLOCATED, "b2", 0⟩,
       ⟨a, s1, a + 64, 0, FREE, "f", 9⟩]
    (by omega)
    (by rw [A1.2.1, A1.2.2]
        show ¬ (a + s1 + s2 + 64 < a + 64 ∨ a + s1 + s2 + 64 > a + s1 + s2 + s3 + sw - 8); omega)
    (by
      rw [A1.1]
      simp [coalesce, coalesce_up, coalesce_down, hAF, hFA]
      simp [moveBlocks, generate_free_block, HEADER_SIZE]
      exact free_locate_append (a + s1 + s2)
        [⟨a + s1 + s2 + s3, sw, a + s1 + s2 + s3 + 64, a + s1 + s2 + s3 + sw - 8, ALLOCATED, "w", 0⟩]
        ⟨a + s1 + s2, s3, a + s1 + s2 + 64, a + s1 + s2 + s3 - 8, ALLOCATED, "b3", 0⟩
        [⟨a + s1, s2, a + s1 + 64, a + s1 + s2 - 8, ALLOCATED, "b2", 0⟩,
       ⟨a, s1, a + 64, 0, FREE, "f", 9⟩]
        (by intro g hg
            rcases (by simpa using hg : g = _) with rfl
            · show ¬ (a + s1 + s2 + s3 = a + s1 + s2); omega
            )
        rfl
      )
    (by
      refine ⟨?_, Or.inr ?_⟩
      · show (a + s1 + s2) % 16 = 0; omega
      · rfl)
    rfl
  -- step 3: free the block at header address a + s1
  have A3 := free_step_proj ((m61_free ((m61_free (threeBlocksState a s1 s2 s3 sw) (a + 64) "f" 9).2) (a + s1 + s2 + 64) "f" 9).2) (a + s1 + 64) "f" 9
    [⟨a + s1 + s2 + s3, sw, a + s1 + s2 + s3 + 64, a + s1 + s2 + s3 + sw - 8, ALLOCATED, "w", 0⟩,
       ⟨a + s1 + s2, s3, a + s1 + s2 + 64, 0, FREE, "f", 9⟩]
    ⟨a + s1, s2, a + s1 + 64, a + s1 + s2 - 8, ALLOCATED, "b2", 0⟩
    [⟨a, s1, a + 64, 0, FREE, "f", 9⟩]
    (by omega)
    (by rw [A2.2.1, A2.2.2, A1.2.1, A1.2.2]
        show ¬ (a + s1 + 64 < a + 64 ∨ a + s1 + 64 > a + s1 + s2 + s3 + sw - 8); omega)
    (by
      rw [A2.1]
      simp [coalesce, coalesce_up, coalesce_down, hAF, hFA]
      simp [moveBlocks, generate_free_block, HEADER_SIZE]
      exact free_locate_append (a + s1)
        [⟨a + s1 + s2 + s3, sw, a + s1 + s2 + s3 + 64, a + s1 + s2 + s3 + sw - 8, ALLOCATED, "w", 0⟩,
       ⟨a + s1 + s2, s3, a + s1 + s2 + 64, 0, FREE, "f", 9⟩]
        ⟨a + s1, s2, a + s1 + 64, a + s1 + s2 - 8, ALLOCATED, "b2", 0⟩
        [⟨a, s1, a + 64, 0, FREE, "f", 9⟩]
        (by intro g hg
            rcases (by simpa using hg : g = _ ∨ g = _) with rfl | rfl
            · show ¬ (a + s1 + s2 + s3 = a + s1); omega
            · show ¬ (a + s1 + s2 = a + s1); omega
            )
        rfl
      )
    (by
      refine ⟨?_, Or.inr ?_⟩
      · show (a + s1) % 16 = 0; omega
      · rfl)
    rfl
  rw [A3.1]
  simp [coalesce, coalesce_up, coalesce_down, hAF, hFA]
  simp [moveBlocks, generate_free_block, HEADER_SIZE]
  try omega

theorem coalesceOrder3 (a s1 s2 s3 sw : Nat)
    (ha : a % 16 = 0) (hs1 : s1 % 16 = 0) (hs2 : s2 % 16 = 0)
    (hb1 : 80 ≤ s1) (hb2 : 80 ≤ s2) (hb3 : 80 ≤ s3) (hbw : 80 ≤ sw) :
    (freeAll (threeBlocksState a s1 s2 s3 sw) [a + s1 + 64, a + 64, a + s1 + s2 + 64]).blocks
      = [⟨a + s1 + s2 + s3, sw, a + s1 + s2 + s3 + 64,
          a + s1 + s2 + s3 + sw - 8, ALLOCATED, "w", 0⟩,
         ⟨a, s1 + s2 + s3, a + 64, 0, FREE, "f", 9⟩] := by
  have hAF : ¬ (ALLOCATED = FREE) := by decide
  have hFA : ¬ (FREE = ALLOCATED) := by decide
  simp only [freeAll]
  -- step 1: free the block at header address a + s1
  have A1 := free_step_proj (threeBlocksState a s1 s2 s3 sw) (a + s1 + 64) "f" 9
    [⟨a + s1 + s2 + s3, sw, a + s1 + s2 + s3 + 64, a + s1 + s2 + s3 + sw - 8, ALLOCATED, "w", 0⟩,
       ⟨a + s1 + s2, s3, a + s1 + s2 + 64, a + s1 + s2 + s3 - 8, ALLOCATED, "b3", 0⟩]
    ⟨a + s1, s2, a + s1 + 64, a + s1 + s2 - 8, ALLOCATED, "b2", 0⟩
    [⟨a, s1, a + 64, a + s1 - 8, ALLOCATED, "b1", 0⟩]
    (by omega)
    (by show ¬ (a + s1 + 64 < a + 64 ∨ a + s1 + 64 > a + s1 + s2 + s3 + sw - 8); omega)
    (by
      simp [threeBlocksState, HEADER_SIZE]
      exact free_locate_append (a + s1)
        [⟨a + s1 + s2 + s3, sw, a + s1 + s2 + s3 + 64, a + s1 + s2 + s3 + sw - 8, ALLOCATED, "w", 0⟩,
       ⟨a + s1 + s2, s3, a + s1 + s2 + 64, a + s1 + s2 + s3 - 8, ALLOCATED, "b3", 0⟩]
        ⟨a + s1, s2, a + s1 + 64, a + s1 + s2 - 8, ALLOCATED, "b2", 0⟩
        [⟨a, s1, a + 64, a + s1 - 8, ALLOCATED, "b1", 0⟩]
        (by intro g hg
            rcases (by simpa using hg : g = _ ∨ g = _) with rfl | rfl
            · show ¬ (a + s1 + s2 + s3 = a + s1); omega
            · show ¬ (a + s1 + s2 = a + s1); omega
            )
        rfl
      )
    (by
      refine ⟨?_, Or.inr ?_⟩
      · show (a + s1) % 16 = 0; omega
      · rfl)
    rfl
  -- step 2: free the block at header address a
  have A2 := free_step_proj ((m61_free (threeBlocksState a s1 s2 s3 sw) (a + s1 + 64) "f" 9).2) (a + 64) "f" 9
    [⟨a + s1 + s2 + s3, sw, a + s1 + s2 + s3 + 64, a + s1 + s2 + s3 + sw - 8, ALLOCATED, "w", 0⟩,
       ⟨a + s1 + s2, s3, a + s1 + s2 + 64, a + s1 + s2 + s3 - 8, ALLOCATED, "b3", 0⟩,
       ⟨a + s1, s2, a + s1 + 64, 0, FREE, "f", 9⟩]
    ⟨a, s1, a + 64, a + s1 - 8, ALLOCATED, "b1", 0⟩
    []
    (by omega)
    (by rw [A1.2.1, A1.2.2]
        show ¬ (a + 64 < a + 64 ∨ a + 64 > a + s1 + s2 + s3 + sw - 8); omega)
    (by
      rw [A1.1]
      simp [coalesce, coalesce_up, coalesce_down, hAF, hFA]
      simp [moveBlocks, generate_free_block, HEADER_SIZE]
      exact free_locate_append (a)
        [⟨a + s1 + s2 + s3, sw, a + s1 + s2 + s3 + 64, a + s1 + s2 + s3 + sw - 8, ALLOCATED, "w", 0⟩,
       ⟨a + s1 + s2, s3, a + s1 + s2 + 64, a + s1 + s2 + s3 - 8, ALLOCATED, "b3", 0⟩,
       ⟨a + s1, s2, a + s1 + 64, 0, FREE, "f", 9⟩]
        ⟨a, s1, a + 64, a + s1 - 8, ALLOCATED, "b1", 0⟩
        []
        (by intro g hg
            rcases (by simpa using hg : g = _ ∨ g = _ ∨ g = _) with rfl | rfl | rfl
            · show ¬ (a + s1 + s2 + s3 = a); omega
            · show ¬ (a + s1 + s2 = a); omega
            · show ¬ (a + s1 = a); omega
            )
        rfl
      )
    (by
      refine ⟨?_, Or.inr ?_⟩
      · show (a) % 16 = 0; omega
      · rfl)
    rfl
  -- step 3: free the block at header address a + s1 + s2
  have A3 := free_step_proj ((m61_free ((m61_free (threeBlocksState a s1 s2 s3 sw) (a + s1 + 64) "f" 9).2) (a + 64) "f" 9).2) (a + s1 + s2 + 64) "f" 9
    [⟨a + s1 + s2 + s3, sw, a + s1 + s2 + s3 + 64, a + s1 + s2 + s3 + sw - 8, ALLOCATED, "w", 0⟩]
    ⟨a + s1 + s2, s3, a + s1 + s2 + 64, a + s1 + s2 + s3 - 8, ALLOCATED, "b3", 0⟩
    [⟨a, s1 + s2, a + 64, 0, FREE, "f", 9⟩]
    (by omega)
    (by rw [A2.2.1, A2.2.2, A1.2.1, A1.2.2]
        show ¬ (a + s1 + s2 + 64 < a + 64 ∨ a + s1 + s2 + 64 > a + s1 + s2 + s3 + sw - 8); omega)
    (by
      rw [A2.1]
      simp [coalesce, coalesce_up, coalesce_down, hAF, hFA]
      simp [moveBlocks, generate_free_block, HEADER_SIZE]
      exact free_locate_append (a + s1 + s2)
        [⟨a + s1 + s2 + s3, sw, a + s1 + s2 + s3 + 64, a + s1 + s2 + s3 + sw - 8, ALLOCATED, "w", 0⟩]
        ⟨a + s1 + s2, s3, a + s1 + s2 + 64, a + s1 + s2 + s3 - 8, ALLOCATED, "b3", 0⟩
        [⟨a, s1 + s2, a + 64, 0, FREE, "f", 9⟩]
        (by intro g hg
            rcases (by simpa using hg : g = _) with rfl
            · show ¬ (a + s1 + s2 + s3 = a + s1 + s2); omega
            )
        rfl
      )
    (by
      refine ⟨?_, Or.inr ?_⟩
      · show (a + s1 + s2) % 16 = 0; omega
      · rfl)
    rfl
  rw [A3.1]
  simp [coalesce, coalesce_up, coalesce_down, hAF, hFA]
  simp [moveBlocks, generate_free_block, HEADER_SIZE]
  try omega

theorem coalesceOrder4 (a s1 s2 s3 sw : Nat)
    (ha : a % 16 = 0) (hs1 : s1 % 16 = 0) (hs2 : s2 % 16 = 0)
    (hb1 : 80 ≤ s1) (hb2 : 80 ≤ s2) (hb3 : 80 ≤ s3) (hbw : 80 ≤ sw) :
    (freeAll (threeBlocksState a s1 s2 s3 sw) [a + s1 + 64, a + s1 + s2 + 64, a + 64]).blocks
      = [⟨a + s1 + s2 + s3, sw, a + s1 + s2 + s3 + 64,
          a + s1 + s2 + s3 + sw - 8, ALLOCATED, "w", 0⟩,
         ⟨a, s1 + s2 + s3, a + 64, 0, FREE, "f", 9⟩] := by
  have hAF : ¬ (ALLOCATED = FREE) := by decide
  have hFA : ¬ (FREE = ALLOCATED) := by decide
  simp only [freeAll]
  -- step 1: free the block at header address a + s1
  have A1 := free_step_proj (threeBlocksState a s1 s2 s3 sw) (a + s1 + 64) "f" 9
    [⟨a + s1 + s2 + s3, sw, a + s1 + s2 + s3 + 64, a + s1 + s2 + s3 + sw - 8, ALLOCATED, "w", 0⟩,
       ⟨a + s1 + s2, s3, a + s1 + s2 + 64, a + s1 + s2 + s3 - 8, ALLOCATED, "b3", 0⟩]
    ⟨a + s1, s2, a + s1 + 64, a + s1 + s2 - 8, ALLOCATED, "b2", 0⟩
    [⟨a, s1, a + 64, a + s1 - 8, ALLOCATED, "b1", 0⟩]
    (by omega)
    (by show ¬ (a + s1 + 64 < a + 64 ∨ a + s1 + 64 > a + s1 + s2 + s3 + sw - 8); omega)
    (by
      simp [threeBlocksState, HEADER_SIZE]
      exact free_locate_append (a + s1)
        [⟨a + s1 + s2 + s3, sw, a + s1 + s2 + s3 + 64, a + s1 + s2 + s3 + sw - 8, ALLOCATED, "w", 0⟩,
       ⟨a + s1 + s2, s3, a + s1 + s2 + 64, a + s1 + s2 + s3 - 8, ALLOCATED, "b3", 0⟩]
        ⟨a + s1, s2, a + s1 + 64, a + s1 + s2 - 8, ALLOCATED, "b2", 0⟩
        [⟨a, s1, a + 64, a + s1 - 8, ALLOCATED, "b1", 0⟩]
        (by intro g hg
            rcases (by simpa using hg : g = _ ∨ g = _) with rfl | rfl
            · show ¬ (a + s1 + s2 + s3 = a + s1); omega
            · show ¬ (a + s1 + s2 = a + s1); omega
            )
        rfl
      )
    (by
      refine ⟨?_, Or.inr ?_⟩
      · show (a + s1) % 16 = 0; omega
      · rfl)
    rfl
  -- step 2: free the block at header address a + s1 + s2
  have A2 := free_step_proj ((m61_free (threeBlocksState a s1 s2 s3 sw) (a + s1 + 64) "f" 9).2) (a + s1 + s2 + 64) "f" 9
    [⟨a + s1 + s2 + s3, sw, a + s1 + s2 + s3 + 64, a + s1 + s2 + s3 + sw - 8, ALLOCATED, "w", 0⟩]
    ⟨a + s1 + s2, s3, a + s1 + s2 + 64, a + s1 + s2 + s3 - 8, ALLOCATED, "b3", 0⟩
    [⟨a + s1, s2, a + s1 + 64, 0, FREE, "f", 9⟩,
       ⟨a, s1, a + 64, a + s1 - 8, ALLOCATED, "b1", 0⟩]
    (by omega)
    (by rw [A1.2.1, A1.2.2]
        show ¬ (a + s1 + s2 + 64 < a + 64 ∨ a + s1 + s2 + 64 > a + s1 + s2 + s3 + sw - 8); omega)
    (by
      rw [A1.1]
      simp [coalesce, coalesce_up, coalesce_down, hAF, hFA]
      simp [moveBlocks, generate_free_block, HEADER_SIZE]
      exact free_locate_append (a + s1 + s2)
        [⟨a + s1 + s2 + s3, sw, a + s1 + s2 + s3 + 64, a + s1 + s2 + s3 + sw - 8, ALLOCATED, "w", 0⟩]
        ⟨a + s1 + s2, s3, a + s1 + s2 + 64, a + s1 + s2 + s3 - 8, ALLOCATED, "b3", 0⟩
        [⟨a + s1, s2, a + s1 + 64, 0, FREE, "f", 9⟩,
       ⟨a, s1, a + 64, a + s1 - 8, ALLOCATED, "b1", 0⟩]
        (by intro g hg
            rcases (by simpa using hg : g = _) with rfl
            · show ¬ (a + s1 + s2 + s3 = a + s1 + s2); omega
            )
        rfl
      )
    (by
      refine ⟨?_, Or.inr ?_⟩
      · show (a + s1 + s2) % 16 = 0; omega
      · rfl)
    rfl
  -- step 3: free the block at header address a
  have A3 := free_step_proj ((m61_free ((m61_free (threeBlocksState a s1 s2 s3 sw) (a + s1 + 64) "f" 9).2) (a + s1 + s2 + 64) "f" 9).2) (a + 64) "f" 9
    [⟨a + s1 + s2 + s3, sw, a + s1 + s2 + s3 + 64, a + s1 + s2 + s3 + sw - 8, ALLOCATED, "w", 0⟩,
       ⟨a + s1, s2 + s3, a + s1 + 64, 0, FREE, "f", 9⟩]
    ⟨a, s1, a + 64, a + s1 - 8, ALLOCATED, "b1", 0⟩
    []
    (by omega)
    (by rw [A2.2.1, A2.2.2, A1.2.1, A1.2.2]
        show ¬ (a + 64 < a + 64 ∨ a + 64 > a + s1 + s2 + s3 + sw - 8); omega)
    (by
      rw [A2.1]
      simp [coalesce, coalesce_up, coalesce_down, hAF, hFA]
      simp [moveBlocks, generate_free_block, HEADER_SIZE]
      exact free_locate_append (a)
        [⟨a + s1 + s2 + s3, sw, a + s1 + s2 + s3 + 64, a + s1 + s2 + s3 + sw - 8, ALLOCATED, "w", 0⟩,
       ⟨a + s1, s2 + s3, a + s1 + 64, 0, FREE, "f", 9⟩]
        ⟨a, s1, a + 64, a + s1 - 8, ALLOCATED, "b1", 0⟩
        []
        (by intro g hg
            rcases (by simpa using hg : g = _ ∨ g = _) with rfl | rfl
            · show ¬ (a + s1 + s2 + s3 = a); omega
            · show ¬ (a + s1 = a); omega
            )
        rfl
      )
    (by
      refine ⟨?_, Or.inr ?_⟩
      · show (a) % 16 = 0; omega
      · rfl)
    rfl
  rw [A3.1]
  simp [coalesce, coalesce_up, coalesce_down, hAF, hFA]
  simp [moveBlocks, generate_free_block, HEADER_SIZE]
  try omega

theorem coalesceOrder5 (a s1 s2 s3 sw : Nat)
    (ha : a % 16 = 0) (hs1 : s1 % 16 = 0) (hs2 : s2 % 16 = 0)
    (hb1 : 80 ≤ s1) (hb2 : 80 ≤ s2) (hb3 : 80 ≤ s3) (hbw : 80 ≤ sw) :
    (freeAll (threeBlocksState a s1 s2 s3 sw) [a + s1 + s2 + 64, a + 64, a + s1 + 64]).blocks
      = [⟨a + s1 + s2 + s3, sw, a + s1 + s2 + s3 + 64,
          a + s1 + s2 + s3 + sw - 8, ALLOCATED, "w", 0⟩,
         ⟨a, s1 + s2 + s3, a + 64, 0, FREE, "f", 9⟩] := by
  have hAF : ¬ (ALLOCATED = FREE) := by decide
  have hFA : ¬ (FREE = ALLOCATED) := by decide
  simp only [freeAll]
  -- step 1: free the block at header address a + s1 + s2
  have A1 := free_step_proj (threeBlocksState a s1 s2 s3 sw) (a + s1 + s2 + 64) "f" 9
    [⟨a + s1 + s2 + s3, sw, a + s1 + s2 + s3 + 64, a + s1 + s2 + s3 + sw - 8, ALLOCATED, "w", 0⟩]
    ⟨a + s1 + s2, s3, a + s1 + s2 + 64, a + s1 + s2 + s3 - 8, ALLOCATED, "b3", 0⟩
    [⟨a + s1, s2, a + s1 + 64, a + s1 + s2 - 8, ALLOCATED, "b2", 0⟩,
       ⟨a, s1, a + 64, a + s1 - 8, ALLOCATED, "b1", 0⟩]
    (by omega)
    (by show ¬ (a + s1 + s2 + 64 < a + 64 ∨ a + s1 + s2 + 64 > a + s1 + s2 + s3 + sw - 8); omega)
    (by
      simp [threeBlocksState, HEADER_SIZE]
      exact free_locate_append (a + s1 + s2)
        [⟨a + s1 + s2 + s3, sw, a + s1 + s2 + s3 + 64, a + s1 + s2 + s3 + sw - 8, ALLOCATED, "w", 0⟩]
        ⟨a + s1 + s2, s3, a + s1 + s2 + 64, a + s1 + s2 + s3 - 8, ALLOCATED, "b3", 0⟩
        [⟨a + s1, s2, a + s1 + 64, a + s1 + s2 - 8, ALLOCATED, "b2", 0⟩,
       ⟨a, s1, a + 64, a + s1 - 8, ALLOCATED, "b1", 0⟩]
        (by intro g hg
            rcases (by simpa using hg : g = _) with rfl
            · show ¬ (a + s1 + s2 + s3 = a + s1 + s2); omega
            )
        rfl
      )
    (by
      refine ⟨?_, Or.inr ?_⟩
      · show (a + s1 + s2) % 16 = 0; omega
      · rfl)
    rfl
  -- step 2: free the block at header address a
  have A2 := free_step_proj ((m61_free (threeBlocksState a s1 s2 s3 sw) (a + s1 + s2 + 64) "f" 9).2) (a + 64) "f" 9
    [⟨a + s1 + s2 + s3, sw, a + s1 + s2 + s3 + 64, a + s1 + s2 + s3 + sw - 8, ALLOCATED, "w", 0⟩,
       ⟨a + s1 + s2, s3, a + s1 + s2 + 64, 0, FREE, "f", 9⟩,
       ⟨a + s1, s2, a + s1 + 64, a + s1 + s2 - 8, ALLOCATED, "b2", 0⟩]
    ⟨a, s1, a + 64, a + s1 - 8, ALLOCATED, "b1", 0⟩
    []
    (by omega)
    (by rw [A1.2.1, A1.2.2]
        show ¬ (a + 64 < a + 64 ∨ a + 64 > a + s1 + s2 + s3 + sw - 8); omega)
    (by
      rw [A1.1]
      simp [coalesce, coalesce_up, coalesce_down, hAF, hFA]
      simp [moveBlocks, generate_free_block, HEADER_SIZE]
      exact free_locate_append (a)
        [⟨a + s1 + s2 + s3, sw, a + s1 + s2 + s3 + 64, a + s1 + s2 + s3 + sw - 8, ALLOCATED, "w", 0⟩,
       ⟨a + s1 + s2, s3, a + s1 + s2 + 64, 0, FREE, "f", 9⟩,
       ⟨a + s1, s2, a + s1 + 64, a + s1 + s2 - 8, ALLOCATED, "b2", 0⟩]
        ⟨a, s1, a + 64, a + s1 - 8, ALLOCATED, "b1", 0⟩
        []
        (by intro g hg
            rcases (by simpa using hg : g = _ ∨ g = _ ∨ g = _) with rfl | rfl | rfl
            · show ¬ (a + s1 + s2 + s3 = a); omega
            · show ¬ (a + s1 + s2 = a); omega
            · show ¬ (a + s1 = a); omega
            )
        rfl
      )
    (by
      refine ⟨?_, Or.inr ?_⟩
      · show (a) % 16 = 0; omega
      · rfl)
    rfl
  -- step 3: free the block at header address a + s1
  have A3 := free_step_proj ((m61_free ((m61_free (threeBlocksState a s1 s2 s3 sw) (a + s1 + s2 + 64) "f" 9).2) (a + 64) "f" 9).2) (a + s1 + 64) "f" 9
    [⟨a + s1 + s2 + s3, sw, a + s1 + s2 + s3 + 64, a + s1 + s2 + s3 + sw - 8, ALLOCATED, "w", 0⟩,
       ⟨a + s1 + s2, s3, a + s1 + s2 + 64, 0, FREE, "f", 9⟩]
    ⟨a + s1, s2, a + s1 + 64, a + s1 + s2 - 8, ALLOCATED, "b2", 0⟩
    [⟨a, s1, a + 64, 0, FREE, "f", 9⟩]
    (by omega)
    (by rw [A2.2.1, A2.2.2, A1.2.1, A1.2.2]
        show ¬ (a + s1 + 64 < a + 64 ∨ a + s1 + 64 > a + s1 + s2 + s3 + sw - 8); omega)
    (by
      rw [A2.1]
      simp [coalesce, coalesce_up, coalesce_down, hAF, hFA]
      simp [moveBlocks, generate_free_block, HEADER_SIZE]
      exact free_locate_append (a + s1)
        [⟨a + s1 + s2 + s3, sw, a + s1 + s2 + s3 + 64, a + s1 + s2 + s3 + sw - 8, ALLOCATED, "w", 0⟩,
       ⟨a + s1 + s2, s3, a + s1 + s2 + 64, 0, FREE, "f", 9⟩]
        ⟨a + s1, s2, a + s1 + 64, a + s1 + s2 - 8, ALLOCATED, "b2", 0⟩
        [⟨a, s1, a + 64, 0, FREE, "f", 9⟩]
        (by intro g hg
            rcases (by simpa using hg : g = _ ∨ g = _) with rfl | rfl
            · show ¬ (a + s1 + s2 + s3 = a + s1); omega
            · show ¬ (a + s1 + s2 = a + s1); omega
            )
        rfl
      )
    (by
      refine ⟨?_, Or.inr ?_⟩
      · show (a + s1) % 16 = 0; omega
      · rfl)
    rfl
  rw [A3.1]
  simp [coalesce, coalesce_up, coalesce_down, hAF, hFA]
  simp [moveBlocks, generate_free_block, HEADER_SIZE]
  try omega

theorem coalesceOrder6 (a s1 s2 s3 sw : Nat)
    (ha : a % 16 = 0) (hs1 : s1 % 16 = 0) (hs2 : s2 % 16 = 0)
    (hb1 : 80 ≤ s1) (hb2 : 80 ≤ s2) (hb3 : 80 ≤ s3) (hbw : 80 ≤ sw) :
    (freeAll (threeBlocksState a s1 s2 s3 sw) [a + s1 + s2 + 64, a + s1 + 64, a + 64]).blocks
      = [⟨a + s1 + s2 + s3, sw, a + s1 + s2 + s3 + 64,
          a + s1 + s2 + s3 + sw - 8, ALLOCATED, "w", 0⟩,
         ⟨a, s1 + s2 + s3, a + 64, 0, FREE, "f", 9⟩] := by
  have hAF : ¬ (ALLOCATED = FREE) := by decide
  have hFA : ¬ (FREE = ALLOCATED) := by decide
  simp only [freeAll]
  -- step 1: free the block at header address a + s1 + s2
  have A1 := free_step_proj (threeBlocksState a s1 s2 s3 sw) (a + s1 + s2 + 64) "f" 9
    [⟨a + s1 + s2 + s3, sw, a + s1 + s2 + s3 + 64, a + s1 + s2 + s3 + sw - 8, ALLOCATED, "w", 0⟩]
    ⟨a + s1 + s2, s3, a + s1 + s2 + 64, a + s1 + s2 + s3 - 8, ALLOCATED, "b3", 0⟩
    [⟨a + s1, s2, a + s1 + 64, a + s1 + s2 - 8, ALLOCATED, "b2", 0⟩,
       ⟨a, s1, a + 64, a + s1 - 8, ALLOCATED, "b1", 0⟩]
    (by omega)
    (by show ¬ (a + s1 + s2 + 64 < a + 64 ∨ a + s1 + s2 + 64 > a + s1 + s2 + s3 + sw - 8); omega)
    (by
      simp [threeBlocksState, HEADER_SIZE]
      exact free_locate_append (a + s1 + s2)
        [⟨a + s1 + s2 + s3, sw, a + s1 + s2 + s3 + 64, a + s1 + s2 + s3 + sw - 8, ALLOCATED, "w", 0⟩]
        ⟨a + s1 + s2, s3, a + s1 + s2 + 64, a + s1 + s2 + s3 - 8, ALLOCATED, "b3", 0⟩
        [⟨a + s1, s2, a + s1 + 64, a + s1 + s2 - 8, ALLOCATED, "b2", 0⟩,
       ⟨a, s1, a + 64, a + s1 - 8, ALLOCATED, "b1", 0⟩]
        (by intro g hg
            rcases (by simpa using hg : g = _) with rfl
            · show ¬ (a + s1 + s2 + s3 = a + s1 + s2); omega
            )
        rfl
      )
    (by
      refine ⟨?_, Or.inr ?_⟩
      · show (a + s1 + s2) % 16 = 0; omega
      · rfl)
    rfl
  -- step 2: free the block at header address a + s1
  have A2 := free_step_proj ((m61_free (threeBlocksState a s1 s2 s3 sw) (a + s1 + s2 + 64) "f" 9).2) (a + s1 + 64) "f" 9
    [⟨a + s1 + s2 + s3, sw, a + s1 + s2 + s3 + 64, a + s1 + s2 + s3 + sw - 8, ALLOCATED, "w", 0⟩,
       ⟨a + s1 + s2, s3, a + s1 + s2 + 64, 0, FREE, "f", 9⟩]
    ⟨a + s1, s2, a + s1 + 64, a + s1 + s2 - 8, ALLOCATED, "b2", 0⟩
    [⟨a, s1, a + 64, a + s1 - 8, ALLOCATED, "b1", 0⟩]
    (by omega)
    (by rw [A1.2.1, A1.2.2]
        show ¬ (a + s1 + 64 < a + 64 ∨ a + s1 + 64 > a + s1 + s2 + s3 + sw - 8); omega)
    (by
      rw [A1.1]
      simp [coalesce, coalesce_up, coalesce_down, hAF, hFA]
      simp [moveBlocks, generate_free_block, HEADER_SIZE]
      exact free_locate_append (a + s1)
        [⟨a + s1 + s2 + s3, sw, a + s1 + s2 + s3 + 64, a + s1 + s2 + s3 + sw - 8, ALLOCATED, "w", 0⟩,
       ⟨a + s1 + s2, s3, a + s1 + s2 + 64, 0, FREE, "f", 9⟩]
        ⟨a + s1, s2, a + s1 + 64, a + s1 + s2 - 8, ALLOCATED, "b2", 0⟩
        [⟨a, s1, a + 64, a + s1 - 8, ALLOCATED, "b1", 0⟩]
        (by intro g hg
            rcases (by simpa using hg : g = _ ∨ g = _) with rfl | rfl
            · show ¬ (a + s1 + s2 + s3 = a + s1); omega
            · show ¬ (a + s1 + s2 = a + s1); omega
            )
        rfl
      )
    (by
      refine ⟨?_, Or.inr ?_⟩
      · show (a + s1) % 16 = 0; omega
      · rfl)
    rfl
  -- step 3: free the block at header address a
  have A3 := free_step_proj ((m61_free ((m61_free (threeBlocksState a s1 s2 s3 sw) (a + s1 + s2 + 64) "f" 9).2) (a + s1 + 64) "f" 9).2) (a + 64) "f" 9
    [⟨a + s1 + s2 + s3, sw, a + s1 + s2 + s3 + 64, a + s1 + s2 + s3 + sw - 8, ALLOCATED, "w", 0⟩,
       ⟨a + s1, s2 + s3, a + s1 + 64, 0, FREE, "f", 9⟩]
    ⟨a, s1, a + 64, a + s1 - 8, ALLOCATED, "b1", 0⟩
    []
    (by omega)
    (by rw [A2.2.1, A2.2.2, A1.2.1, A1.2.2]
        show ¬ (a + 64 < a + 64 ∨ a + 64 > a + s1 + s2 + s3 + sw - 8); omega)
    (by
      rw [A2.1]
      simp [coalesce, coalesce_up, coalesce_down, hAF, hFA]
      simp [moveBlocks, generate_free_block, HEADER_SIZE]
      exact free_locate_append (a)
        [⟨a + s1 + s2 + s3, sw, a + s1 + s2 + s3 + 64, a + s1 + s2 + s3 + sw - 8, ALLOCATED, "w", 0⟩,
       ⟨a + s1, s2 + s3, a + s1 + 64, 0, FREE, "f", 9⟩]
        ⟨a, s1, a + 64, a + s1 - 8, ALLOCATED, "b1", 0⟩
        []
        (by intro g hg
            rcases (by simpa using hg : g = _ ∨ g = _) with rfl | rfl
            · show ¬ (a + s1 + s2 + s3 = a); omega
            · show ¬ (a + s1 = a); omega
            )
        rfl
      )
    (by
      refine ⟨?_, Or.inr ?_⟩
      · show (a) % 16 = 0; omega
      · rfl)
    rfl
  rw [A3.1]
  simp [coalesce, coalesce_up, coalesce_down, hAF, hFA]
  simp [moveBlocks, generate_free_block, HEADER_SIZE]
  try omega

/-- C5: freeing three adjacent allocated blocks in any of the six possible
orders leaves the block list with a single contiguous free region, starting
at the first block's address, whose block size is the sum `s1 + s2 + s3` of
the three original block sizes; the allocated guard block above is
untouched.  The hypotheses state the block geometry the allocator itself
produces: 16-byte-aligned addresses and sizes of at least
`MIN_BLOCK_SIZE = 80`. -/
theorem coalescing_three_adjacent_any_order (a s1 s2 s3 sw : Nat)
    (ha : a % 16 = 0) (hs1 : s1 % 16 = 0) (hs2 : s2 % 16 = 0)
    (hb1 : 80 ≤ s1) (hb2 : 80 ≤ s2) (hb3 : 80 ≤ s3) (hbw : 80 ≤ sw)
    (ord : List Nat)
    (hord : ord ∈ sixOrders (a + 64) (a + s1 + 64) (a + s1 + s2 + 64)) :
    (freeAll (threeBlocksState a s1 s2 s3 sw) ord).blocks
      = [⟨a + s1 + s2 + s3, sw, a + s1 + s2 + s3 + 64,
          a + s1 + s2 + s3 + sw - 8, ALLOCATED, "w", 0⟩,
         ⟨a, s1 + s2 + s3, a + 64, 0, FREE, "f", 9⟩] ∧
    ((freeAll (threeBlocksState a s1 s2 s3 sw) ord).blocks.filter
        (fun h => h.p_status == FREE)).length = 1 := by
  have key : (freeAll (threeBlocksState a s1 s2 s3 sw) ord).blocks
      = [⟨a + s1 + s2 + s3, sw, a + s1 + s2 + s3 + 64,
          a + s1 + s2 + s3 + sw - 8, ALLOCATED, "w", 0⟩,
         ⟨a, s1 + s2 + s3, a + 64, 0, FREE, "f", 9⟩] := by
    simp only [sixOrders, List.mem_cons, List.not_mem_nil, or_false] at hord
    rcases hord with rfl | rfl | rfl | rfl | rfl | rfl
    · exact coalesceOrder1 a s1 s2 s3 sw ha hs1 hs2 hb1 hb2 hb3 hbw
    · exact coalesceOrder2 a s1 s2 s3 sw ha hs1 hs2 hb1 hb2 hb3 hbw
    · exact coalesceOrder3 a s1 s2 s3 sw ha hs1 hs2 hb1 hb2 hb3 hbw
    · exact coalesceOrder4 a s1 s2 s3 sw ha hs1 hs2 hb1 hb2 hb3 hbw
    · exact coalesceOrder5 a s1 s2 s3 sw ha hs1 hs2 hb1 hb2 hb3 hbw
    · exact coalesceOrder6 a s1 s2 s3 sw ha hs1 hs2 hb1 hb2 hb3 hbw
  refine ⟨key, ?_⟩
  rw [key, List.filter_cons_of_neg (by show ¬ (ALLOCATED == FREE) = true; decide),
      List.filter_cons_of_pos (by show (FREE == FREE) = true; decide),
      List.filter_nil]
  rfl

/-- Witness for `coalescing_three_adjacent_any_order`: four 80-byte blocks
at 1024, 1104, 1184, 1264; the three lower ones freed bottom-up merge into
one 240-byte free block at 1024. -/
theorem coalescing_three_adjacent_any_order_witness :
    (freeAll (threeBlocksState 1024 80 80 80 80) [1088, 1168, 1248]).blocks
      = [⟨1264, 80, 1328, 1336, ALLOCATED, "w", 0⟩,
         ⟨1024, 240, 1088, 0, FREE, "f", 9⟩] := by
  have h := (coalescing_three_adjacent_any_order 1024 80 80 80 80 (by decide)
    (by decide) (by decide) (by decide) (by decide) (by decide) (by decide)
    [1088, 1168, 1248] (by decide)).1
  rw [h]

/-!  Claims C6 and C10: shared lemmas about `countA`/`sumA`, `coalesce`,
`move_buffer_pos` and the control-flow of `m61_free`. -/

theorem FREE_ne_ALLOCATED : FREE ≠ ALLOCATED := by decide

theorem countA_append (l1 l2 : List Header) :
    countA (l1 ++ l2) = countA l1 + countA l2 := by
  unfold countA
  rw [List.filter_append, List.length_append]

theorem sumA_append (l1 l2 : List Header) :
    sumA (l1 ++ l2) = sumA l1 + sumA l2 := by
  unfold sumA
  rw [List.filter_append, List.map_append, List.sum_append]

theorem countA_cons (h : Header) (l : List Header) :
    countA (h :: l) = countA [h] + countA l :=
  countA_append [h] l

theorem sumA_cons (h : Header) (l : List Header) :
    sumA (h :: l) = sumA [h] + sumA l :=
  sumA_append [h] l

theorem countA_one_alloc (h : Header) (hs : h.p_status = ALLOCATED) :
    countA [h] = 1 := by
  unfold countA
  rw [List.filter_cons_of_pos (by simp [hs]), List.filter_nil]
  rfl

theorem countA_one_nonalloc (h : Header) (hs : h.p_status ≠ ALLOCATED) :
    countA [h] = 0 := by
  unfold countA
  rw [List.filter_cons_of_neg (by simp [hs]), List.filter_nil]
  rfl

theorem sumA_one_alloc (h : Header) (hs : h.p_status = ALLOCATED) :
    sumA [h] = get_payload_size h := by
  unfold sumA
  rw [List.filter_cons_of_pos (by simp [hs]), List.filter_nil]
  simp

theorem sumA_one_nonalloc (h : Header) (hs : h.p_status ≠ ALLOCATED) :
    sumA [h] = 0 := by
  unfold sumA
  rw [List.filter_cons_of_neg (by simp [hs]), List.filter_nil]
  rfl

/-- The two possible results of the upward-coalescing step. -/
theorem coalesce_up_cases (pre : List Header) (h : Header) :
    coalesce_up pre h = (pre, h, []) ∨
    ∃ p, pre.getLast? = some p ∧ p.p_status = FREE ∧
      coalesce_up pre h = (pre.dropLast,
        { h with block_size := h.block_size + p.block_size }, [p]) := by
  cases hgl : pre.getLast? with
  | none => exact Or.inl (by unfold coalesce_up; rw [hgl])
  | some p =>
    by_cases hp : p.p_status = FREE
    · exact Or.inr ⟨p, rfl, hp,
        by unfold coalesce_up; simp only [hgl]; rw [if_pos hp]⟩
    · exact Or.inl (by unfold coalesce_up; simp only [hgl]; rw [if_neg hp])

theorem coalesce_down_nil (pre1 : List Header) (h1 : Header)
    (t1 : List Header) :
    coalesce_down pre1 h1 t1 [] = (pre1 ++ [h1], t1) := rfl

theorem coalesce_down_cons_free (pre1 : List Header) (h1 : Header)
    (t1 : List Header) (n : Header) (post1 : List Header)
    (hn : n.p_status = FREE) :
    coalesce_down pre1 h1 t1 (n :: post1)
      = (pre1 ++ { n with block_size := n.block_size + h1.block_size } :: post1,
         h1 :: t1) := by
  simp only [coalesce_down]
  rw [if_pos hn]

theorem coalesce_down_cons_nonfree (pre1 : List Header) (h1 : Header)
    (t1 : List Header) (n : Header) (post1 : List Header)
    (hn : ¬ n.p_status = FREE) :
    coalesce_down pre1 h1 t1 (n :: post1)
      = (pre1 ++ h1 :: n :: post1, t1) := by
  simp only [coalesce_down]
  rw [if_neg hn]

/-- Decomposition of the `coalesce` result: the freed block — possibly
grown by the sizes of absorbed free neighbours — sits between a sublist of
the original predecessors and a sublist of the original successors, the
`ALLOCATED` counts and payload totals of both sides are unchanged, and
every unlinked header is a free one. -/
theorem coalesce_parts (pre : List Header) (hF : Header) (post : List Header)
    (hfree : hF.p_status = FREE) :
    ∃ pre1 mid post1 t,
      coalesce pre hF post = (pre1 ++ mid :: post1, t) ∧
      mid.p_status = FREE ∧
      (mid = hF ∨
       (∃ p, p ∈ pre ∧ p.p_status = FREE ∧
         mid = { hF with block_size := hF.block_size + p.block_size }) ∨
       (∃ n, n ∈ post ∧ n.p_status = FREE ∧
         mid = { n with block_size := n.block_size + hF.block_size }) ∨
       (∃ p n, p ∈ pre ∧ n ∈ post ∧ p.p_status = FREE ∧ n.p_status = FREE ∧
         mid = { n with block_size :=
           n.block_size + (hF.block_size + p.block_size) })) ∧
      (∀ x ∈ pre1, x ∈ pre) ∧ (∀ x ∈ post1, x ∈ post) ∧
      countA pre1 = countA pre ∧ sumA pre1 = sumA pre ∧
      countA post1 = countA post ∧ sumA post1 = sumA post ∧
      (∀ x ∈ t, x.p_status = FREE ∧
        (x ∈ pre ∨ x = hF ∨
          ∃ p, p ∈ pre ∧ p.p_status = FREE ∧
            x = { hF with block_size := hF.block_size + p.block_size })) := by
  rcases coalesce_up_cases pre hF with hcu | ⟨p, hgl, hp, hcu⟩
  · have hc : coalesce pre hF post = coalesce_down pre hF [] post := by
      unfold coalesce; rw [hcu]
    cases post with
    | nil =>
      refine ⟨pre, hF, [], [], ?_, hfree, Or.inl rfl, fun x hx => hx,
        fun x hx => absurd hx (List.not_mem_nil x), rfl, rfl, rfl, rfl,
        fun x hx => absurd hx (List.not_mem_nil x)⟩
      rw [hc, coalesce_down_nil]
    | cons n post2 =>
      by_cases hn : n.p_status = FREE
      · refine ⟨pre, { n with block_size := n.block_size + hF.block_size },
          post2, [hF], ?_, hn,
          Or.inr (Or.inr (Or.inl ⟨n, List.mem_cons_self n post2, hn, rfl⟩)),
          fun x hx => hx, fun x hx => List.mem_cons_of_mem n hx, rfl, rfl,
          ?_, ?_, ?_⟩
        · rw [hc, coalesce_down_cons_free pre hF [] n post2 hn]
        · rw [countA_cons,
            countA_one_nonalloc n (by rw [hn]; exact FREE_ne_ALLOCATED)]
          omega
        · rw [sumA_cons,
            sumA_one_nonalloc n (by rw [hn]; exact FREE_ne_ALLOCATED)]
          omega
        · intro x hx
          have hxF : x = hF := by simpa using hx
          subst hxF
          exact ⟨hfree, Or.inr (Or.inl rfl)⟩
      · refine ⟨pre, hF, n :: post2, [], ?_, hfree, Or.inl rfl,
          fun x hx => hx, fun x hx => hx, rfl, rfl, rfl, rfl,
          fun x hx => absurd hx (List.not_mem_nil x)⟩
        rw [hc, coalesce_down_cons_nonfree pre hF [] n post2 hn]
  · have hc : coalesce pre hF post
        = coalesce_down pre.dropLast
            { hF with block_size := hF.block_size + p.block_size } [p] post := by
      unfold coalesce; rw [hcu]
    have hpmem : p ∈ pre := List.mem_of_mem_getLast? hgl
    have hpdecomp : pre = pre.dropLast ++ [p] :=
      (List.dropLast_append_getLast? p hgl).symm
    have hpna : p.p_status ≠ ALLOCATED := by rw [hp]; exact FREE_ne_ALLOCATED
    have hcnt : countA pre.dropLast = countA pre := by
      conv_rhs => rw [hpdecomp]
      rw [countA_append, countA_one_nonalloc p hpna]
      omega
    have hsum : sumA pre.dropLast = sumA pre := by
      conv_rhs => rw [hpdecomp]
      rw [sumA_append, sumA_one_nonalloc p hpna]
      omega
    have hdropmem : ∀ x ∈ pre.dropLast, x ∈ pre :=
      fun x hx => List.mem_of_mem_dropLast hx
    cases post with
    | nil =>
      refine ⟨pre.dropLast,
        { hF with block_size := hF.block_size + p.block_size },
        [], [p], ?_, hfree, Or.inr (Or.inl ⟨p, hpmem, hp, rfl⟩), hdropmem,
        fun x hx => absurd hx (List.not_mem_nil x), hcnt, hsum, rfl, rfl, ?_⟩
      · rw [hc, coalesce_down_nil]
      · intro x hx
        have hxp : x = p := by simpa using hx
        subst hxp
        exact ⟨hp, Or.inl hpmem⟩
    | cons n post2 =>
      by_cases hn : n.p_status = FREE
      · refine ⟨pre.dropLast,
          { n with block_size :=
            n.block_size + (hF.block_size + p.block_size) },
          post2,
          [{ hF with block_size := hF.block_size + p.block_size }, p],
          ?_, hn,
          Or.inr (Or.inr (Or.inr
            ⟨p, n, hpmem, List.mem_cons_self n post2, hp, hn, rfl⟩)),
          hdropmem, fun x hx => List.mem_cons_of_mem n hx, hcnt, hsum,
          ?_, ?_, ?_⟩
        · rw [hc, coalesce_down_cons_free _ _ _ _ _ hn]
        · rw [countA_cons,
            countA_one_nonalloc n (by rw [hn]; exact FREE_ne_ALLOCATED)]
          omega
        · rw [sumA_cons,
            sumA_one_nonalloc n (by rw [hn]; exact FREE_ne_ALLOCATED)]
          omega
        · intro x hx
          rcases List.mem_cons.mp hx with rfl | hx2
          · exact ⟨hfree, Or.inr (Or.inr ⟨p, hpmem, hp, rfl⟩)⟩
          · have hxp : x = p := by simpa using hx2
            subst hxp
            exact ⟨hp, Or.inl hpmem⟩
      · refine ⟨pre.dropLast,
          { hF with block_size := hF.block_size + p.block_size },
          n :: post2, [p], ?_, hfree, Or.inr (Or.inl ⟨p, hpmem, hp, rfl⟩),
          hdropmem, fun x hx => hx, hcnt, hsum, rfl, rfl, ?_⟩
        · rw [hc, coalesce_down_cons_nonfree _ _ _ _ _ hn]
        · intro x hx
          have hxp : x = p := by simpa using hx
          subst hxp
          exact ⟨hp, Or.inl hpmem⟩

/-- Either `move_buffer_pos` is the identity (empty list or allocated
head), or it pops a non-allocated head, retracts the frontier by its block
size and leaves the header behind as a stale one. -/
theorem move_buffer_pos_cases (s : AllocState) :
    move_buffer_pos s = s ∨
    ∃ h rest, s.blocks = h :: rest ∧ h.p_status ≠ ALLOCATED ∧
      move_buffer_pos s = { s with pos := s.pos - h.block_size,
                                   blocks := rest,
                                   tombs := h :: s.tombs } := by
  cases hb : s.blocks with
  | nil => exact Or.inl (by unfold move_buffer_pos; rw [hb])
  | cons h rest =>
    by_cases hA : h.p_status = ALLOCATED
    · exact Or.inl (move_buffer_pos_alloc_head s h rest hb hA)
    · exact Or.inr ⟨h, rest, rfl, hA,
        move_buffer_pos_nonalloc_head s h rest hb hA⟩

/-- Control flow of `m61_free`: either it does not return normally and the
state is unchanged, or every validation passed and the state update is the
coalesce-and-retract sequence on the located block. -/
theorem m61_free_state_cases (s : AllocState) (ptr : Nat) (f : String)
    (l : Nat) :
    ((m61_free s ptr f l).1 ≠ FreeOutcome.ok ∧ (m61_free s ptr f l).2 = s) ∨
    ((m61_free s ptr f l).1 = FreeOutcome.ok ∧
      ∃ pre b post,
        free_locate (ptr - HEADER_SIZE) s.blocks = some (pre, b, post) ∧
        b.p_status = ALLOCATED ∧ is_header_valid b ptr ∧
        (m61_free s ptr f l).2 = move_buffer_pos
          { s with
            blocks := (coalesce pre
              (generate_free_block (ptr - HEADER_SIZE) b.block_size f l)
              post).1,
            tombs := (coalesce pre
              (generate_free_block (ptr - HEADER_SIZE) b.block_size f l)
              post).2 ++ s.tombs,
            stats := remove_from_statistics s.stats (get_payload_size b) }) := by
  by_cases hz : ptr = 0
  · have he : m61_free s ptr f l = (.nullNoop, s) := by
      unfold m61_free; rw [if_pos hz]
    exact Or.inl ⟨by rw [he]; simp, by rw [he]⟩
  by_cases hr : ptr < s.stats.heap_min ∨ ptr > s.stats.heap_max
  · have he : m61_free s ptr f l = (.abortNotInHeap, s) := by
      unfold m61_free; rw [if_neg hz, if_pos hr]
    exact Or.inl ⟨by rw [he]; simp, by rw [he]⟩
  cases hloc : free_locate (ptr - HEADER_SIZE) s.blocks with
  | none =>
    cases hf : s.tombs.find? (fun g => g.addr == ptr - HEADER_SIZE) with
    | none =>
      have he : m61_free s ptr f l = (.abortInvalidHeader, s) := by
        unfold m61_free; rw [if_neg hz, if_neg hr]; simp only [hloc, hf]
      exact Or.inl ⟨by rw [he]; simp, by rw [he]⟩
    | some g =>
      by_cases hvg : is_header_valid g ptr
      · by_cases hag : g.p_status = ALLOCATED
        · have he : m61_free s ptr f l = (.staleUndefined, s) := by
            unfold m61_free; rw [if_neg hz, if_neg hr]; simp only [hloc, hf]
            rw [if_neg (not_not_intro hvg), if_neg (not_not_intro hag)]
          exact Or.inl ⟨by rw [he]; simp, by rw [he]⟩
        · by_cases hfg : g.p_status = FREE
          · have he : m61_free s ptr f l = (.abortDoubleFree, s) := by
              unfold m61_free; rw [if_neg hz, if_neg hr]; simp only [hloc, hf]
              rw [if_neg (not_not_intro hvg), if_pos hag, if_pos hfg]
            exact Or.inl ⟨by rw [he]; simp, by rw [he]⟩
          · have he : m61_free s ptr f l = (.abortNotAllocated, s) := by
              unfold m61_free; rw [if_neg hz, if_neg hr]; simp only [hloc, hf]
              rw [if_neg (not_not_intro hvg), if_pos hag, if_neg hfg]
            exact Or.inl ⟨by rw [he]; simp, by rw [he]⟩
      · have he : m61_free s ptr f l = (.abortInvalidHeader, s) := by
          unfold m61_free; rw [if_neg hz, if_neg hr]; simp only [hloc, hf]
          rw [if_pos hvg]
        exact Or.inl ⟨by rw [he]; simp, by rw [he]⟩
  | some z =>
    obtain ⟨pre0, b0, post0⟩ := z
    by_cases hv : is_header_valid b0 ptr
    · by_cases hA : b0.p_status = ALLOCATED
      · have he := m61_free_ok_eq s ptr f l pre0 b0 post0 hz hr hloc hv hA
        exact Or.inr ⟨by rw [he], pre0, b0, post0, rfl, hA, hv, by rw [he]⟩
      · by_cases hfb : b0.p_status = FREE
        · have he : m61_free s ptr f l = (.abortDoubleFree, s) := by
            unfold m61_free; rw [if_neg hz, if_neg hr]; simp only [hloc]
            rw [if_neg (not_not_intro hv), if_pos hA, if_pos hfb]
          exact Or.inl ⟨by rw [he]; simp, by rw [he]⟩
        · have he : m61_free s ptr f l = (.abortNotAllocated, s) := by
            unfold m61_free; rw [if_neg hz, if_neg hr]; simp only [hloc]
            rw [if_neg (not_not_intro hv), if_pos hA, if_neg hfb]
          exact Or.inl ⟨by rw [he]; simp, by rw [he]⟩
    · have he : m61_free s ptr f l = (.abortInvalidHeader, s) := by
        unfold m61_free; rw [if_neg hz, if_neg hr]; simp only [hloc]
        rw [if_pos hv]
      exact Or.inl ⟨by rw [he]; simp, by rw [he]⟩

/-- `split_block` at an `ALLOCATED` header: exactly one allocated block
survives, and it keeps the payload size. -/
theorem split_block_count (h : Header) (required : Nat)
    (hA : h.p_status = ALLOCATED) :
    countA (split_block h required) = 1 ∧
    sumA (split_block h required) = get_payload_size h := by
  simp only [split_block]
  by_cases hres : h.block_size - required < MIN_BLOCK_SIZE
  · rw [if_pos hres]
    exact ⟨countA_one_alloc h hA, sumA_one_alloc h hA⟩
  · rw [if_neg hres]
    constructor
    · rw [countA_cons, countA_one_nonalloc _ FREE_ne_ALLOCATED,
        countA_one_alloc { h with block_size := required } hA]
    · rw [sumA_cons, sumA_one_nonalloc _ FREE_ne_ALLOCATED,
        sumA_one_alloc { h with block_size := required } hA]
      show 0 + (h.p_end_marker - h.p_payload) = get_payload_size h
      unfold get_payload_size
      omega

/-- A successful first-fit search converts exactly one free block into an
allocated one of payload size `psz`. -/
theorem find_freed_block_count (required psz : Nat) (f : String) (l : Nat) :
    ∀ (bl : List Header) (p : Nat) (bl2 : List Header),
      find_freed_block required psz f l bl = some (p, bl2) →
      countA bl2 = countA bl + 1 ∧ sumA bl2 = sumA bl + psz := by
  intro bl
  induction bl with
  | nil => intro p bl2 h; simp [find_freed_block] at h
  | cons x rest ih =>
    intro p bl2 h
    unfold find_freed_block at h
    by_cases hfit : x.p_status = FREE ∧ required ≤ x.block_size
    · rw [if_pos hfit] at h
      simp only [Option.some.injEq, Prod.mk.injEq] at h
      obtain ⟨_, hbl⟩ := h
      subst hbl
      have hxn : x.p_status ≠ ALLOCATED := by
        rw [hfit.1]; exact FREE_ne_ALLOCATED
      obtain ⟨hsc, hss⟩ := split_block_count
        (generate_alloc_block x.addr x.block_size psz f l) required rfl
      constructor
      · rw [countA_append, hsc, countA_cons, countA_one_nonalloc x hxn]
        omega
      · rw [sumA_append, hss, sumA_cons, sumA_one_nonalloc x hxn]
        have hg : get_payload_size
            (generate_alloc_block x.addr x.block_size psz f l) = psz := by
          simp only [get_payload_size, generate_alloc_block]
          omega
        rw [hg]
        omega
    · rw [if_neg hfit] at h
      cases hrec : find_freed_block required psz f l rest with
      | none => rw [hrec] at h; exact absurd h (by simp)
      | some pr =>
        obtain ⟨p1, rest2⟩ := pr
        rw [hrec] at h
        simp only [Option.some.injEq, Prod.mk.injEq] at h
        obtain ⟨_, hbl⟩ := h
        subst hbl
        obtain ⟨ih1, ih2⟩ := ih p1 rest2 hrec
        constructor
        · rw [countA_cons x rest2, countA_cons x rest, ih1]; omega
        · rw [sumA_cons x rest2, sumA_cons x rest, ih2]; omega

/-- A successful `find_free_space` adds one allocated block of payload
size `psz` and touches neither the stale headers nor the statistics. -/
theorem find_free_space_some_effects (s : AllocState) (bs psz : Nat)
    (f : String) (l : Nat) (q : Nat)
    (h : (find_free_space s bs psz f l).1 = some q) :
    countA (find_free_space s bs psz f l).2.blocks = countA s.blocks + 1 ∧
    sumA (find_free_space s bs psz f l).2.blocks = sumA s.blocks + psz ∧
    (find_free_space s bs psz f l).2.tombs = s.tombs ∧
    (find_free_space s bs psz f l).2.stats = s.stats := by
  unfold find_free_space at h ⊢
  by_cases hcap : bs ≤ BUFFER_SIZE - s.pos
  · rw [if_pos hcap] at h ⊢
    refine ⟨?_, ?_, rfl, rfl⟩
    · show countA (generate_alloc_block (BUF_BASE + s.pos) bs psz f l
          :: s.blocks) = countA s.blocks + 1
      rw [countA_cons, countA_one_alloc _ rfl]
      omega
    · show sumA (generate_alloc_block (BUF_BASE + s.pos) bs psz f l
          :: s.blocks) = sumA s.blocks + psz
      rw [sumA_cons, sumA_one_alloc _ rfl]
      have hg : get_payload_size
          (generate_alloc_block (BUF_BASE + s.pos) bs psz f l) = psz := by
        simp only [get_payload_size, generate_alloc_block]
        omega
      rw [hg]
      omega
  · rw [if_neg hcap] at h ⊢
    cases hm : find_freed_block bs psz f l s.blocks with
    | none => rw [hm] at h; exact absurd h (by simp)
    | some pr =>
      obtain ⟨q2, bl⟩ := pr
      obtain ⟨hc, hsm⟩ := find_freed_block_count bs psz f l s.blocks q2 bl hm
      refine ⟨?_, ?_, rfl, rfl⟩
      · show countA bl = countA s.blocks + 1
        exact hc
      · show sumA bl = sumA s.blocks + psz
        exact hsm

/-- A successful `m61_malloc` bumps the four conserved statistics exactly
as one more live block of `sz` payload bytes, and the block list counts
track them. -/
theorem m61_malloc_some_effects (s : AllocState) (sz : Nat) (f : String)
    (l : Nat) (q : Nat)
    (h : (m61_malloc s sz f l).1 = some q) :
    (m61_malloc s sz f l).2.stats.ntotal = s.stats.ntotal + 1 ∧
    (m61_malloc s sz f l).2.stats.nactive = s.stats.nactive + 1 ∧
    (m61_malloc s sz f l).2.stats.total_size = s.stats.total_size + sz ∧
    (m61_malloc s sz f l).2.stats.active_size = s.stats.active_size + sz ∧
    countA (m61_malloc s sz f l).2.blocks = countA s.blocks + 1 ∧
    sumA (m61_malloc s sz f l).2.blocks = sumA s.blocks + sz ∧
    (m61_malloc s sz f l).2.tombs = s.tombs := by
  unfold m61_malloc at h ⊢
  by_cases hov : sz > SIZE_MAX - malloc_padding sz - HEADER_SIZE
  · rw [if_pos hov] at h; exact absurd h (by simp)
  · rw [if_neg hov] at h ⊢
    cases hf : find_free_space s (HEADER_SIZE + sz + malloc_padding sz)
        sz f l with
    | mk r s1 =>
      rw [hf] at h
      cases r with
      | none => exact absurd h (by simp)
      | some q2 =>
        have hq1 : (find_free_space s (HEADER_SIZE + sz + malloc_padding sz)
            sz f l).1 = some q2 := by rw [hf]
        have hq2 : (find_free_space s (HEADER_SIZE + sz + malloc_padding sz)
            sz f l).2 = s1 := by rw [hf]
        have heff := find_free_space_some_effects s
          (HEADER_SIZE + sz + malloc_padding sz) sz f l q2 hq1
        rw [hq2] at heff
        obtain ⟨e5, e6, e7, est⟩ := heff
        refine ⟨?_, ?_, ?_, ?_, ?_, ?_, ?_⟩
        · show (add_to_statistics s1.stats sz q2).ntotal = s.stats.ntotal + 1
          rw [est]; rfl
        · show (add_to_statistics s1.stats sz q2).nactive
              = s.stats.nactive + 1
          rw [est]; rfl
        · show (add_to_statistics s1.stats sz q2).total_size
              = s.stats.total_size + sz
          rw [est]; rfl
        · show (add_to_statistics s1.stats sz q2).active_size
              = s.stats.active_size + sz
          rw [est]; rfl
        · show countA s1.blocks = countA s.blocks + 1
          exact e5
        · show sumA s1.blocks = sumA s.blocks + sz
          exact e6
        · show s1.tombs = s.tombs
          exact e7

/-- A normally returning `m61_free` leaves the totals alone and removes
exactly one allocated block, of payload size `freed_payload`, from the
active statistics and from the block list counts. -/
theorem m61_free_ok_effects (s : AllocState) (ptr : Nat) (f : String)
    (l : Nat) (h : (m61_free s ptr f l).1 = FreeOutcome.ok) :
    (m61_free s ptr f l).2.stats.ntotal = s.stats.ntotal ∧
    (m61_free s ptr f l).2.stats.total_size = s.stats.total_size ∧
    (m61_free s ptr f l).2.stats.nactive = s.stats.nactive - 1 ∧
    (m61_free s ptr f l).2.stats.active_size
      = s.stats.active_size - freed_payload s ptr ∧
    countA (m61_free s ptr f l).2.blocks = countA s.blocks - 1 ∧
    sumA (m61_free s ptr f l).2.blocks
      = sumA s.blocks - freed_payload s ptr ∧
    1 ≤ countA s.blocks ∧ freed_payload s ptr ≤ sumA s.blocks := by
  rcases m61_free_state_cases s ptr f l with
    ⟨hne, _⟩ | ⟨_, pre, b, post, hloc, hA, _, heq⟩
  · exact absurd h hne
  · obtain ⟨hdecomp, _⟩ :=
      free_locate_spec (ptr - HEADER_SIZE) s.blocks pre b post hloc
    have hfp : freed_payload s ptr = get_payload_size b := by
      unfold freed_payload; rw [hloc]
    obtain ⟨pre1, mid, post1, t, hco, hmidF, _, _, _, hc1, hs1, hc2, hs2, _⟩ :=
      coalesce_parts pre
        (generate_free_block (ptr - HEADER_SIZE) b.block_size f l) post rfl
    have hcntS : countA s.blocks = countA pre + countA post + 1 := by
      rw [hdecomp, countA_append, countA_cons, countA_one_alloc b hA]
      omega
    have hsumS : sumA s.blocks
        = sumA pre + sumA post + get_payload_size b := by
      rw [hdecomp, sumA_append, sumA_cons, sumA_one_alloc b hA]
      omega
    have hco1 : (coalesce pre
        (generate_free_block (ptr - HEADER_SIZE) b.block_size f l)
        post).1 = pre1 ++ mid :: post1 := by rw [hco]
    have hmidNA : mid.p_status ≠ ALLOCATED := by
      rw [hmidF]; exact FREE_ne_ALLOCATED
    have hcntC : countA (coalesce pre
        (generate_free_block (ptr - HEADER_SIZE) b.block_size f l)
        post).1 = countA pre + countA post := by
      rw [hco1, countA_append, countA_cons, countA_one_nonalloc mid hmidNA,
        hc1, hc2]
      omega
    have hsumC : sumA (coalesce pre
        (generate_free_block (ptr - HEADER_SIZE) b.block_size f l)
        post).1 = sumA pre + sumA post := by
      rw [hco1, sumA_append, sumA_cons, sumA_one_nonalloc mid hmidNA,
        hs1, hs2]
      omega
    rw [heq]
    rcases move_buffer_pos_cases { s with
        blocks := (coalesce pre
          (generate_free_block (ptr - HEADER_SIZE) b.block_size f l)
          post).1,
        tombs := (coalesce pre
          (generate_free_block (ptr - HEADER_SIZE) b.block_size f l)
          post).2 ++ s.tombs,
        stats := remove_from_statistics s.stats (get_payload_size b) } with
      hmv | ⟨hd, rest, hblk, hdna, hmv⟩
    · rw [hmv]
      refine ⟨rfl, rfl, rfl, ?_, ?_, ?_, ?_, ?_⟩
      · show (remove_from_statistics s.stats (get_payload_size b)).active_size
            = s.stats.active_size - freed_payload s ptr
        rw [hfp]
        rfl
      · show countA (coalesce pre
            (generate_free_block (ptr - HEADER_SIZE) b.block_size f l)
            post).1 = countA s.blocks - 1
        rw [hcntC, hcntS]
        omega
      · show sumA (coalesce pre
            (generate_free_block (ptr - HEADER_SIZE) b.block_size f l)
            post).1 = sumA s.blocks - freed_payload s ptr
        rw [hfp, hsumC, hsumS]
        omega
      · rw [hcntS]; omega
      · rw [hfp, hsumS]; omega
    · rw [hmv]
      have hblk2 : (coalesce pre
          (generate_free_block (ptr - HEADER_SIZE) b.block_size f l)
          post).1 = hd :: rest := hblk
      have hcr : countA rest = countA pre + countA post := by
        have h2 := hcntC
        rw [hblk2, countA_cons, countA_one_nonalloc hd hdna] at h2
        omega
      have hsr : sumA rest = sumA pre + sumA post := by
        have h2 := hsumC
        rw [hblk2, sumA_cons, sumA_one_nonalloc hd hdna] at h2
        omega
      refine ⟨rfl, rfl, rfl, ?_, ?_, ?_, ?_, ?_⟩
      · show (remove_from_statistics s.stats (get_payload_size b)).active_size
            = s.stats.active_size - freed_payload s ptr
        rw [hfp]
        rfl
      · show countA rest = countA s.blocks - 1
        rw [hcr, hcntS]
        omega
      · show sumA rest = sumA s.blocks - freed_payload s ptr
        rw [hsr, hfp, hsumS]
        omega
      · rw [hcntS]; omega
      · rw [hfp, hsumS]; omega

/-- `runOp` only ever turns the all-calls-succeeded flag off. -/
theorem runOp_allOk (acc : RunAcc) (op : Op)
    (h : (runOp acc op).allOk = true) : acc.allOk = true := by
  cases op with
  | malloc sz =>
    simp only [runOp] at h
    cases hm : m61_malloc acc.s sz "caller" 0 with
    | mk r s1 =>
      rw [hm] at h
      have h2 : (acc.allOk && r.isSome) = true := h
      exact Bool.and_elim_left h2
  | free ptr =>
    simp only [runOp] at h
    cases hm : m61_free acc.s ptr "caller" 0 with
    | mk r s1 =>
      rw [hm] at h
      have h2 : (acc.allOk && (r == FreeOutcome.ok)) = true := h
      exact Bool.and_elim_left h2

/-- If a whole run reports success, so did every prefix. -/
theorem runFrom_allOk (ops : List Op) :
    ∀ acc : RunAcc, (runFrom acc ops).allOk = true → acc.allOk = true := by
  induction ops with
  | nil => intro acc h; exact h
  | cons op ops2 ih =>
    intro acc h
    exact runOp_allOk acc op (ih (runOp acc op) h)

/-!  Claim C6: conservation of the allocation statistics. -/

/-- The conservation invariant of a run accumulator: the failure-free
statistics equations, tied to the actual block list through `countA` and
`sumA`. -/
def statsInv (acc : RunAcc) : Prop :=
  acc.s.stats.ntotal = acc.s.stats.nactive + acc.freedCount ∧
  acc.s.stats.total_size = acc.s.stats.active_size + acc.freedBytes ∧
  acc.s.stats.nactive = countA acc.s.blocks ∧
  acc.s.stats.active_size = sumA acc.s.blocks

theorem statsInv_runOp (acc : RunAcc) (op : Op) (hI : statsInv acc)
    (hok : (runOp acc op).allOk = true) : statsInv (runOp acc op) := by
  obtain ⟨h1, h2, h3, h4⟩ := hI
  cases op with
  | malloc sz =>
    simp only [runOp] at hok ⊢
    cases hm : m61_malloc acc.s sz "caller" 0 with
    | mk r s1 =>
      rw [hm] at hok
      have hok2 : (acc.allOk && r.isSome) = true := hok
      obtain ⟨q, hq⟩ := Option.isSome_iff_exists.mp (Bool.and_elim_right hok2)
      have hq1 : (m61_malloc acc.s sz "caller" 0).1 = some q := by
        rw [hm]; exact hq
      have heff := m61_malloc_some_effects acc.s sz "caller" 0 q hq1
      have hs1 : (m61_malloc acc.s sz "caller" 0).2 = s1 := by rw [hm]
      rw [hs1] at heff
      obtain ⟨e1, e2, e3, e4, e5, e6, e7⟩ := heff
      refine ⟨?_, ?_, ?_, ?_⟩
      · show s1.stats.ntotal = s1.stats.nactive + acc.freedCount
        omega
      · show s1.stats.total_size = s1.stats.active_size + acc.freedBytes
        omega
      · show s1.stats.nactive = countA s1.blocks
        omega
      · show s1.stats.active_size = sumA s1.blocks
        omega
  | free ptr =>
    simp only [runOp] at hok ⊢
    cases hm : m61_free acc.s ptr "caller" 0 with
    | mk out s1 =>
      rw [hm] at hok
      have hok2 : (acc.allOk && (out == FreeOutcome.ok)) = true := hok
      have hout : out = FreeOutcome.ok := by
        simpa using Bool.and_elim_right hok2
      have h5 : (m61_free acc.s ptr "caller" 0).1 = FreeOutcome.ok := by
        rw [hm]; exact hout
      have heff := m61_free_ok_effects acc.s ptr "caller" 0 h5
      have hs1 : (m61_free acc.s ptr "caller" 0).2 = s1 := by rw [hm]
      rw [hs1] at heff
      obtain ⟨e1, e2, e3, e4, e5, e6, e7, e8⟩ := heff
      refine ⟨?_, ?_, ?_, ?_⟩
      · show s1.stats.ntotal = s1.stats.nactive + (acc.freedCount + 1)
        omega
      · show s1.stats.total_size
            = s1.stats.active_size + (acc.freedBytes + freed_payload acc.s ptr)
        omega
      · show s1.stats.nactive = countA s1.blocks
        omega
      · show s1.stats.active_size = sumA s1.blocks
        omega

theorem statsInv_runFrom (ops : List Op) :
    ∀ acc : RunAcc, statsInv acc → (runFrom acc ops).allOk = true →
      statsInv (runFrom acc ops) := by
  induction ops with
  | nil => intro acc hI _; exact hI
  | cons op ops2 ih =>
    intro acc hI hok
    exact ih (runOp acc op)
      (statsInv_runOp acc op hI (runFrom_allOk ops2 (runOp acc op) hok)) hok

/-- C6: for every sequence of allocate and free calls in which no call
fails, the total allocation count equals the active count plus the number
of frees performed, and the total allocated bytes equal the active bytes
plus the bytes freed so far (each free contributes `freed_payload`, the
payload size its matching allocate added).  Every prefix of such a run is
itself such a run, so the equations hold at every point in time. -/
theorem statistics_conservation (ops : List Op)
    (h : (runAll ops).allOk = true) :
    (runAll ops).s.stats.ntotal
      = (runAll ops).s.stats.nactive + (runAll ops).freedCount ∧
    (runAll ops).s.stats.total_size
      = (runAll ops).s.stats.active_size + (runAll ops).freedBytes := by
  have hI := statsInv_runFrom ops
    { s := initState, freedCount := 0, freedBytes := 0, allOk := true }
    ⟨rfl, rfl, rfl, rfl⟩ h
  exact ⟨hI.1, hI.2.1⟩

/-- Witness for `statistics_conservation`: a malloc-free-malloc run in
which every call succeeds. -/
theorem statistics_conservation_witness :
    (runAll [Op.malloc 100, Op.free (BUF_BASE + HEADER_SIZE),
        Op.malloc 50]).allOk = true ∧
    ((runAll [Op.malloc 100, Op.free (BUF_BASE + HEADER_SIZE),
         Op.malloc 50]).s.stats.ntotal
       = (runAll [Op.malloc 100, Op.free (BUF_BASE + HEADER_SIZE),
           Op.malloc 50]).s.stats.nactive
         + (runAll [Op.malloc 100, Op.free (BUF_BASE + HEADER_SIZE),
             Op.malloc 50]).freedCount ∧
     (runAll [Op.malloc 100, Op.free (BUF_BASE + HEADER_SIZE),
         Op.malloc 50]).s.stats.total_size
       = (runAll [Op.malloc 100, Op.free (BUF_BASE + HEADER_SIZE),
           Op.malloc 50]).s.stats.active_size
         + (runAll [Op.malloc 100, Op.free (BUF_BASE + HEADER_SIZE),
             Op.malloc 50]).freedBytes) :=
  ⟨by decide, statistics_conservation
    [Op.malloc 100, Op.free (BUF_BASE + HEADER_SIZE), Op.malloc 50]
    (by decide)⟩

/-!  Claim C10: the alignment invariant. -/

/-- A header that obeys the alignment discipline: aligned header address,
block size a multiple of the alignment, and the payload pointer exactly one
header past the header address. -/
def hdr_aligned (h : Header) : Prop :=
  h.addr % ALIGNMENT = 0 ∧ h.block_size % ALIGNMENT = 0 ∧
  h.p_payload = h.addr + HEADER_SIZE

/-- The alignment invariant of the allocator state: an aligned frontier and
aligned linked and stale headers. -/
def aligned_state (s : AllocState) : Prop :=
  s.pos % ALIGNMENT = 0 ∧
  (∀ h ∈ s.blocks, hdr_aligned h) ∧ (∀ h ∈ s.tombs, hdr_aligned h)

/-- The block size `m61_malloc` computes is always a multiple of the
alignment. -/
theorem malloc_block_size_aligned (sz : Nat) :
    (HEADER_SIZE + sz + malloc_padding sz) % ALIGNMENT = 0 := by
  show (HEADER_SIZE + sz +
      (if ALIGNMENT - (HEADER_SIZE + sz) % ALIGNMENT < END_MARKER_SIZE
       then ALIGNMENT - (HEADER_SIZE + sz) % ALIGNMENT + ALIGNMENT
       else ALIGNMENT - (HEADER_SIZE + sz) % ALIGNMENT)) % ALIGNMENT = 0
  simp only [HEADER_SIZE, ALIGNMENT, END_MARKER_SIZE]
  split <;> omega

theorem split_block_aligned (h : Header) (required : Nat)
    (hh : hdr_aligned h) (hr : required % ALIGNMENT = 0) :
    ∀ x ∈ split_block h required, hdr_aligned x := by
  intro x hx
  simp only [split_block] at hx
  obtain ⟨ha, hs, hp⟩ := hh
  by_cases hres : h.block_size - required < MIN_BLOCK_SIZE
  · rw [if_pos hres] at hx
    have hxh : x = h := by simpa using hx
    subst hxh
    exact ⟨ha, hs, hp⟩
  · rw [if_neg hres] at hx
    rcases List.mem_cons.mp hx with rfl | hx2
    · refine ⟨?_, ?_, rfl⟩
      · show (h.addr + required) % ALIGNMENT = 0
        simp only [ALIGNMENT] at ha hr ⊢
        omega
      · show (h.block_size - required) % ALIGNMENT = 0
        simp only [ALIGNMENT] at hs hr ⊢
        omega
    · have hxh : x = { h with block_size := required } := by simpa using hx2
      subst hxh
      exact ⟨ha, hr, hp⟩

theorem find_freed_block_aligned (required psz : Nat) (f : String) (l : Nat)
    (hr : required % ALIGNMENT = 0) :
    ∀ (bl : List Header) (p : Nat) (bl2 : List Header),
      (∀ x ∈ bl, hdr_aligned x) →
      find_freed_block required psz f l bl = some (p, bl2) →
      ∀ x ∈ bl2, hdr_aligned x := by
  intro bl
  induction bl with
  | nil => intro p bl2 _ h; simp [find_freed_block] at h
  | cons y rest ih =>
    intro p bl2 hall h
    unfold find_freed_block at h
    by_cases hfit : y.p_status = FREE ∧ required ≤ y.block_size
    · rw [if_pos hfit] at h
      simp only [Option.some.injEq, Prod.mk.injEq] at h
      obtain ⟨_, hbl⟩ := h
      subst hbl
      intro x hx
      rcases List.mem_append.mp hx with hx1 | hx2
      · have hy := hall y (List.mem_cons_self y rest)
        exact split_block_aligned
          (generate_alloc_block y.addr y.block_size psz f l) required
          ⟨hy.1, hy.2.1, rfl⟩ hr x hx1
      · exact hall x (List.mem_cons_of_mem y hx2)
    · rw [if_neg hfit] at h
      cases hrec : find_freed_block required psz f l rest with
      | none => rw [hrec] at h; exact absurd h (by simp)
      | some pr =>
        obtain ⟨p1, rest2⟩ := pr
        rw [hrec] at h
        simp only [Option.some.injEq, Prod.mk.injEq] at h
        obtain ⟨_, hbl⟩ := h
        subst hbl
        intro x hx
        rcases List.mem_cons.mp hx with rfl | hx2
        · exact hall x (List.mem_cons_self x rest)
        · exact ih p1 rest2 (fun z hz => hall z (List.mem_cons_of_mem y hz))
            hrec x hx2

theorem m61_malloc_aligned (s : AllocState) (sz : Nat) (f : String) (l : Nat)
    (hs : aligned_state s) : aligned_state (m61_malloc s sz f l).2 := by
  obtain ⟨hpos, hbl, htm⟩ := hs
  unfold m61_malloc
  by_cases hov : sz > SIZE_MAX - malloc_padding sz - HEADER_SIZE
  · rw [if_pos hov]
    exact ⟨hpos, hbl, htm⟩
  · rw [if_neg hov]
    unfold find_free_space
    by_cases hcap : HEADER_SIZE + sz + malloc_padding sz ≤ BUFFER_SIZE - s.pos
    · rw [if_pos hcap]
      refine ⟨?_, ?_, ?_⟩
      · show (s.pos + (HEADER_SIZE + sz + malloc_padding sz)) % ALIGNMENT = 0
        have hb := malloc_block_size_aligned sz
        simp only [ALIGNMENT] at hpos hb ⊢
        omega
      · show ∀ x ∈ generate_alloc_block (BUF_BASE + s.pos)
            (HEADER_SIZE + sz + malloc_padding sz) sz f l :: s.blocks,
            hdr_aligned x
        intro x hx
        rcases List.mem_cons.mp hx with rfl | hx2
        · refine ⟨?_, malloc_block_size_aligned sz, rfl⟩
          show (BUF_BASE + s.pos) % ALIGNMENT = 0
          simp only [ALIGNMENT, BUF_BASE] at hpos ⊢
          omega
        · exact hbl x hx2
      · show ∀ x ∈ s.tombs, hdr_aligned x
        exact htm
    · rw [if_neg hcap]
      cases hm : find_freed_block (HEADER_SIZE + sz + malloc_padding sz) sz
          f l s.blocks with
      | none => exact ⟨hpos, hbl, htm⟩
      | some pr =>
        obtain ⟨q, bl⟩ := pr
        refine ⟨hpos, ?_, htm⟩
        show ∀ x ∈ bl, hdr_aligned x
        exact find_freed_block_aligned (HEADER_SIZE + sz + malloc_padding sz)
          sz f l (malloc_block_size_aligned sz) s.blocks q bl hbl hm

theorem m61_free_aligned (s : AllocState) (ptr : Nat) (f : String) (l : Nat)
    (hs : aligned_state s) : aligned_state (m61_free s ptr f l).2 := by
  obtain ⟨hpos, hbl, htm⟩ := hs
  rcases m61_free_state_cases s ptr f l with
    ⟨_, heq⟩ | ⟨_, pre, b, post, hloc, _, _, heq⟩
  · rw [heq]; exact ⟨hpos, hbl, htm⟩
  · obtain ⟨hdecomp, hbaddr⟩ :=
      free_locate_spec (ptr - HEADER_SIZE) s.blocks pre b post hloc
    have hpremem : ∀ x ∈ pre, x ∈ s.blocks := by
      intro x hx; rw [hdecomp]; exact List.mem_append_left _ hx
    have hpostmem : ∀ x ∈ post, x ∈ s.blocks := by
      intro x hx; rw [hdecomp]
      exact List.mem_append_right _ (List.mem_cons_of_mem b hx)
    have hbmem : b ∈ s.blocks := by
      rw [hdecomp]; exact List.mem_append_right _ (List.mem_cons_self b post)
    have hb := hbl b hbmem
    have hgf : hdr_aligned
        (generate_free_block (ptr - HEADER_SIZE) b.block_size f l) := by
      refine ⟨?_, hb.2.1, rfl⟩
      show (ptr - HEADER_SIZE) % ALIGNMENT = 0
      rw [← hbaddr]
      exact hb.1
    obtain ⟨pre1, mid, post1, t, hco, _, hmid, hpre1, hpost1, _, _, _, _, htF⟩ :=
      coalesce_parts pre
        (generate_free_block (ptr - HEADER_SIZE) b.block_size f l) post rfl
    have hco1 : (coalesce pre
        (generate_free_block (ptr - HEADER_SIZE) b.block_size f l)
        post).1 = pre1 ++ mid :: post1 := by rw [hco]
    have hco2 : (coalesce pre
        (generate_free_block (ptr - HEADER_SIZE) b.block_size f l)
        post).2 = t := by rw [hco]
    have hmidA : hdr_aligned mid := by
      rcases hmid with rfl | ⟨p, hpm, _, rfl⟩ | ⟨n, hnm, _, rfl⟩ |
        ⟨p, n, hpm, hnm, _, _, rfl⟩
      · exact hgf
      · have hp := hbl p (hpremem p hpm)
        refine ⟨hgf.1, ?_, hgf.2.2⟩
        show (b.block_size + p.block_size) % ALIGNMENT = 0
        have u1 := hb.2.1
        have u2 := hp.2.1
        simp only [ALIGNMENT] at u1 u2 ⊢
        omega
      · have hn := hbl n (hpostmem n hnm)
        refine ⟨hn.1, ?_, hn.2.2⟩
        show (n.block_size + b.block_size) % ALIGNMENT = 0
        have u1 := hn.2.1
        have u2 := hb.2.1
        simp only [ALIGNMENT] at u1 u2 ⊢
        omega
      · have hp := hbl p (hpremem p hpm)
        have hn := hbl n (hpostmem n hnm)
        refine ⟨hn.1, ?_, hn.2.2⟩
        show (n.block_size + (b.block_size + p.block_size)) % ALIGNMENT = 0
        have u1 := hn.2.1
        have u2 := hb.2.1
        have u3 := hp.2.1
        simp only [ALIGNMENT] at u1 u2 u3 ⊢
        omega
    have htA : ∀ x ∈ t, hdr_aligned x := by
      intro x hx
      rcases (htF x hx).2 with hxp | rfl | ⟨p, hpm, _, rfl⟩
      · exact hbl x (hpremem x hxp)
      · exact hgf
      · have hp := hbl p (hpremem p hpm)
        refine ⟨hgf.1, ?_, hgf.2.2⟩
        show (b.block_size + p.block_size) % ALIGNMENT = 0
        have u1 := hb.2.1
        have u2 := hp.2.1
        simp only [ALIGNMENT] at u1 u2 ⊢
        omega
    have hS : aligned_state { s with
        blocks := (coalesce pre
          (generate_free_block (ptr - HEADER_SIZE) b.block_size f l)
          post).1,
        tombs := (coalesce pre
          (generate_free_block (ptr - HEADER_SIZE) b.block_size f l)
          post).2 ++ s.tombs,
        stats := remove_from_statistics s.stats (get_payload_size b) } := by
      refine ⟨hpos, ?_, ?_⟩
      · intro x hx
        have hx2 : x ∈ pre1 ++ mid :: post1 := by rw [← hco1]; exact hx
        rcases List.mem_append.mp hx2 with hx3 | hx3
        · exact hbl x (hpremem x (hpre1 x hx3))
        · rcases List.mem_cons.mp hx3 with rfl | hx4
          · exact hmidA
          · exact hbl x (hpostmem x (hpost1 x hx4))
      · intro x hx
        have hx2 : x ∈ t ++ s.tombs := by rw [← hco2]; exact hx
        rcases List.mem_append.mp hx2 with hx3 | hx3
        · exact htA x hx3
        · exact htm x hx3
    rw [heq]
    rcases move_buffer_pos_cases { s with
        blocks := (coalesce pre
          (generate_free_block (ptr - HEADER_SIZE) b.block_size f l)
          post).1,
        tombs := (coalesce pre
          (generate_free_block (ptr - HEADER_SIZE) b.block_size f l)
          post).2 ++ s.tombs,
        stats := remove_from_statistics s.stats (get_payload_size b) } with
      hmv | ⟨hd, rest, hblk, _, hmv⟩
    · rw [hmv]; exact hS
    · rw [hmv]
      obtain ⟨_, hSbl, hStm⟩ := hS
      have hhd : hdr_aligned hd := hSbl hd (by
        rw [hblk]; exact List.mem_cons_self hd rest)
      refine ⟨?_, ?_, ?_⟩
      · show (s.pos - hd.block_size) % ALIGNMENT = 0
        have u1 := hhd.2.1
        simp only [ALIGNMENT] at hpos u1 ⊢
        omega
      · intro x hx
        exact hSbl x (by rw [hblk]; exact List.mem_cons_of_mem hd hx)
      · intro x hx
        rcases List.mem_cons.mp hx with rfl | hx2
        · exact hhd
        · exact hStm x hx2

theorem aligned_state_runOp (acc : RunAcc) (op : Op)
    (h : aligned_state acc.s) : aligned_state (runOp acc op).s := by
  cases op with
  | malloc sz =>
    simp only [runOp]
    cases hm : m61_malloc acc.s sz "caller" 0 with
    | mk r s1 =>
      have h2 := m61_malloc_aligned acc.s sz "caller" 0 h
      rw [hm] at h2
      exact h2
  | free ptr =>
    simp only [runOp]
    cases hm : m61_free acc.s ptr "caller" 0 with
    | mk r s1 =>
      have h2 := m61_free_aligned acc.s ptr "caller" 0 h
      rw [hm] at h2
      exact h2

theorem aligned_state_runFrom (ops : List Op) :
    ∀ acc : RunAcc, aligned_state acc.s →
      aligned_state (runFrom acc ops).s := by
  induction ops with
  | nil => intro acc h; exact h
  | cons op ops2 ih =>
    intro acc h
    exact ih (runOp acc op) (aligned_state_runOp acc op h)

/-- C10: after any sequence of allocator calls, the arena frontier is
aligned and every block the allocator ever created — carved at the
frontier or split off a found free block, still linked or already stale —
has a block size that is a multiple of `ALIGNMENT` and an aligned header
address, so its payload pointer (the value handed to the caller) is
aligned one `HEADER_SIZE` past the header; in particular the alignment
check of `is_header_valid` holds for the header that `m61_free` recovers
from such a payload pointer. -/
theorem allocator_alignment_invariant (ops : List Op) :
    (runAll ops).s.pos % ALIGNMENT = 0 ∧
    ∀ h ∈ (runAll ops).s.blocks ++ (runAll ops).s.tombs,
      h.addr % ALIGNMENT = 0 ∧ h.block_size % ALIGNMENT = 0 ∧
      h.p_payload = h.addr + HEADER_SIZE ∧ h.p_payload % ALIGNMENT = 0 ∧
      is_header_valid h h.p_payload := by
  have hI := aligned_state_runFrom ops
    { s := initState, freedCount := 0, freedBytes := 0, allOk := true }
    ⟨by decide, fun x hx => absurd hx (List.not_mem_nil x),
     fun x hx => absurd hx (List.not_mem_nil x)⟩
  obtain ⟨hpos, hbl, htm⟩ := hI
  refine ⟨hpos, ?_⟩
  intro h hmem
  have hh : hdr_aligned h := by
    rcases List.mem_append.mp hmem with h1 | h2
    · exact hbl h h1
    · exact htm h h2
  obtain ⟨ha, hs, hp⟩ := hh
  refine ⟨ha, hs, hp, ?_, ha, Or.inr rfl⟩
  rw [hp]
  simp only [ALIGNMENT, HEADER_SIZE] at ha ⊢
  omega

end M61
